import Mathlib

/-!
Shallow embedding of the tabular ingestion and type/role inference engine of
`src/ingestion_utils.py` (functions `load_data`, `infer_and_coerce_datatypes`,
`infer_column_roles`, `detect_orientation`, `process_gym_data`).

Modelling conventions:
* A raw cell is `Option String` (pandas `NaN` is `none`).
* Sources are in-memory streams carrying an optional `name` attribute and an
  already-decoded text body.  All three candidate encodings are modelled as
  decoding to the same text, which is exact for the ASCII inputs used by every
  claim; the encoding loop itself is embedded faithfully.
* `pandas.read_csv(engine="python")` is modelled for unquoted content:
  blank lines are skipped, empty fields parse to null, short rows are padded
  with nulls, and a data row longer than the header raises a parser error.
* Python exceptions are `Except.error`; a `ValueError` from `load_data` is
  `LoadErr.unparsable`, a `ZeroDivisionError` in a downstream stage is
  `PErr.zeroDivision`.
* Ratio comparisons such as `count / n > 0.8` are embedded exactly as integer
  cross-multiplications (`5 * count > 4 * n`); for the row-width consistency
  test, `std > 1` (sample standard deviation, `ddof = 1`) is embedded exactly
  as `n * sum x^2 - (sum x)^2 > n * (n - 1)`.
* Warning strings keep the shape of the source's messages (the interpolated
  exception texts and percentage figures are elided; no claim reads them).
-/

namespace Ingest

set_option maxRecDepth 8000

/-- Decidable equality of `Except` results (componentwise). -/
instance {ε α : Type} [DecidableEq ε] [DecidableEq α] : DecidableEq (Except ε α) := fun a b =>
  match a, b with
  | .error x, .error y =>
    if h : x = y then .isTrue (by rw [h]) else .isFalse (by simp [h])
  | .error _, .ok _ => .isFalse (by simp)
  | .ok _, .error _ => .isFalse (by simp)
  | .ok x, .ok y =>
    if h : x = y then .isTrue (by rw [h]) else .isFalse (by simp [h])

/-- A raw cell: a string value or null (pandas NaN). -/
abbrev Cell := Option String

/-- Split a character list at every occurrence of `delim`.  Mirrors Python
`str.split` with an explicit separator: empty fields are kept and the empty
input yields a single empty field. -/
def chSplit (delim : Char) : List Char → List (List Char)
  | [] => [[]]
  | c :: cs =>
    match chSplit delim cs with
    | [] => [[c]]
    | h :: t => if c = delim then [] :: h :: t else (c :: h) :: t

/-- Occurrences of character `c` in `s`, as Python `str.count` for the
single-character needles used by the loader. -/
def countChar (s : String) (c : Char) : Nat := s.data.count c

/-- ASCII whitespace recognised by Python `str.strip()` on the inputs in scope. -/
def isSpaceCh (c : Char) : Bool := c == ' ' || c == '\t' || c == '\n' || c == '\r'

/-- Python `str.strip()`. -/
def trimAscii (l : List Char) : List Char :=
  ((l.dropWhile isSpaceCh).reverse.dropWhile isSpaceCh).reverse

/-- Lower-casing of one ASCII character, as Python `str.lower` on the inputs in
scope. -/
def lowerCh (c : Char) : Char :=
  if 'A' ≤ c && c ≤ 'Z' then Char.ofNat (c.toNat + 32) else c

/-- Python `str.lower` (ASCII). -/
def lowerStr (s : String) : String := String.mk (s.data.map lowerCh)

/-- Drop the first `n` characters of a string. -/
def dropStr (s : String) (n : Nat) : String := String.mk (s.data.drop n)

/-- An untyped table: named columns over string-or-null cells (the RawTable of
the spec; a pandas DataFrame as far as the loader observes it). -/
structure Df where
  header : List String
  rows : List (List Cell)
deriving DecidableEq

/-- Column count (`df.shape[1]`). -/
def Df.ncols (t : Df) : Nat := t.header.length

/-- Row count (`df.shape[0]`, `len(df)`). -/
def Df.nrows (t : Df) : Nat := t.rows.length

/-- One field of a parsed CSV data row: the empty field is NaN. -/
def csvCell (f : List Char) : Cell := if f = [] then none else some (String.mk f)

/-- Model of `pandas.read_csv(..., delimiter=d, engine="python")` on unquoted
text: blank lines are skipped, the first remaining line is the header, empty
fields become null, short rows are padded with nulls, a row longer than the
header is a parser error, and content with no lines at all is an
`EmptyDataError`.  Both error cases are the `Except.error` branch. -/
def readCsv (content : String) (delim : Char) : Except Unit Df :=
  let ls := (chSplit '\n' content.data).filter (· ≠ [])
  match ls with
  | [] => .error ()
  | h :: body =>
    let hdr := (chSplit delim h).map String.mk
    let n := hdr.length
    let raw := body.map (fun l => (chSplit delim l).map csvCell)
    if raw.any (fun r => decide (n < r.length)) then .error ()
    else .ok ⟨hdr, raw.map (fun r => r ++ List.replicate (n - r.length) (none : Cell))⟩

/-- The candidate delimiters in the order they are listed in the source. -/
def baseDelims : List Char := [',', '\t', ';', '|']

/-- Delimiter/count pairs for the candidate delimiters that occur at least once
in the decoded text, in base order (the Python dict preserves insertion
order). -/
def posCounts (content : String) : List (Char × Nat) :=
  (baseDelims.filter (fun d => decide (0 < countChar content d))).map
    (fun d => (d, countChar content d))

/-- Stable insertion into a count-descending list: the new pair goes after
every strictly more frequent pair, matching Python's stable
`sorted(..., reverse=True)`. -/
def insertDesc (p : Char × Nat) : List (Char × Nat) → List (Char × Nat)
  | [] => [p]
  | q :: t => if p.2 < q.2 then q :: insertDesc p t else p :: q :: t

/-- Stable sort by descending count. -/
def sortDesc : List (Char × Nat) → List (Char × Nat)
  | [] => []
  | p :: t => insertDesc p (sortDesc t)

/-- Delimiter prioritisation of `load_data`: delimiters that occur in the text,
most frequent first (stable), followed by the unseen ones in base order; if
none occurs, the base order is kept. -/
def orderedDelims (content : String) : List Char :=
  let pc := posCounts content
  if pc.isEmpty then baseDelims
  else (sortDesc pc).map Prod.fst ++
    baseDelims.filter (fun d => !(pc.any (fun q => q.1 == d)))

/-- Count of non-null fields in a row (`row.notna().sum()`). -/
def notnaCount (r : List Cell) : Nat := r.countP (·.isSome)

/-- Whether the sample standard deviation (ddof = 1) of the list exceeds 1,
embedded exactly: `std > 1` iff `n * sum x^2 - (sum x)^2 > n * (n-1)`.  Only
used when the list has at least two entries. -/
def stdGtOne (xs : List Nat) : Bool :=
  let n : Int := xs.length
  let s : Int := (xs.map (fun x => (x : Int))).sum
  let s2 : Int := (xs.map (fun x => (x : Int) * (x : Int))).sum
  decide (n * (n - 1) < n * s2 - s * s)

/-- The row-width consistency rejection of `load_data` lines 96-102: among the
rows that are not entirely null, the non-null field counts have sample standard
deviation above 1 (checked only when more than one such row exists). -/
def stdRejects (t : Df) : Bool :=
  let ne := t.rows.filter (fun r => r.any (·.isSome))
  let cc := ne.map notnaCount
  decide (1 < cc.length) && stdGtOne cc

/-- The candidate encodings, in the fixed priority order of the source. -/
inductive Encoding | utf8 | latin1 | iso88591
deriving DecidableEq

/-- The encodings list of `load_data`. -/
def encodings : List Encoding := [.utf8, .latin1, .iso88591]

/-- Display name of an encoding, as in the source's strings. -/
def encName : Encoding → String
  | .utf8 => "utf-8"
  | .latin1 => "latin1"
  | .iso88591 => "iso-8859-1"

/-- Warning emitted when a read attempt raises. -/
def readFailMsg (d : Char) (e : Encoding) : String :=
  "Failed to load with delimiter " ++ String.mk [d] ++ " and encoding " ++
    encName e ++ "."

/-- Warning emitted when a parse yields a single column. -/
def singleColMsg (d : Char) (e : Encoding) : String :=
  "Attempted to load with delimiter " ++ String.mk [d] ++ " and encoding " ++
    encName e ++ ", but resulted in a single column. Trying other options."

/-- Warning emitted when a parse fails the row-width consistency check. -/
def inconsistentMsg (d : Char) (e : Encoding) : String :=
  "Delimiter " ++ String.mk [d] ++ " with encoding " ++ encName e ++
    " resulted in inconsistent column counts across rows. Trying other options."

/-- Warning announcing the mixed-delimiter fallback. -/
def fallbackNoticeMsg : String :=
  "File appears to have inconsistent delimiters. Attempting fallback parsing."

/-- Warning recorded when the mixed-delimiter fallback succeeds. -/
def fallbackDoneMsg : String :=
  "Successfully parsed file with mixed delimiters using fallback method."

/-- Warning of the unrecognised-extension branch. -/
def unsupportedMsg (ext : String) : String :=
  "Unsupported file type detected: " ++ ext ++ ". Attempting to load as CSV."

/-- Warning of a failed spreadsheet load attempt. -/
def excelFailMsg (e : Encoding) : String :=
  "Failed to load Excel file with encoding " ++ encName e ++ "."

/-- Warning of a failed fallback-CSV load attempt (unknown-extension branch). -/
def fbCsvFailMsg (d : Char) (e : Encoding) : String :=
  "Fallback CSV loading failed with delimiter " ++ String.mk [d] ++
    " and encoding " ++ encName e ++ "."

/-- Result of the text-path loading loops.  `df` and `ws` are the Python
variables of the same names; `acc` is bookkeeping recording the delimiter at
which the loop broke by accepting a parse (it mirrors the `break` at line 104
and is not a Python value). -/
structure TextOut where
  df : Option Df
  ws : List String
  acc : Option Char
deriving DecidableEq

/-- The inner delimiter loop of `load_data` lines 83-106: each attempt
re-binds `df` even when the parse is then rejected; a parse is rejected when it
is empty or single-column (with a warning only in the single-column case) or
when it fails the row-width consistency check; the first surviving parse breaks
the loop. -/
def delimLoop (content : String) (e : Encoding) :
    List Char → Option Df → List String → TextOut
  | [], df, ws => ⟨df, ws, none⟩
  | d :: rest, df, ws =>
    match readCsv content d with
    | .error _ => delimLoop content e rest df (ws ++ [readFailMsg d e])
    | .ok t =>
      if t.rows.isEmpty || t.ncols == 1 then
        delimLoop content e rest (some t)
          (if t.ncols == 1 then ws ++ [singleColMsg d e] else ws)
      else if stdRejects t then
        delimLoop content e rest (some t) (ws ++ [inconsistentMsg d e])
      else ⟨some t, ws, some d⟩

/-- The outer encoding loop of `load_data` lines 82-108: it breaks as soon as
`df` is bound, whether or not any parse was accepted. -/
def encLoop (content : String) (delims : List Char) :
    List Encoding → Option Df → List String → TextOut
  | [], df, ws => ⟨df, ws, none⟩
  | e :: rest, df, ws =>
    let r := delimLoop content e delims df ws
    match r.df with
    | some t => ⟨some t, r.ws, r.acc⟩
    | none => encLoop content delims rest none r.ws

/-- Header scan of the fallback parser (lines 120-127): the delimiter whose
split of the header yields strictly the most fields, first such in list order,
together with that field count. -/
def bestHeader (delims : List Char) (hdr : List Char) : Nat × Option Char :=
  delims.foldl
    (fun acc d =>
      let c := (chSplit d hdr).length
      if acc.1 < c then (c, some d) else acc)
    (0, none)

/-- Per-line parsing of the fallback parser (lines 132-149): try the best
delimiter, retry the other candidates in list order on a width mismatch, keep
the line as a single unsplit field when none matches. -/
def parseLine (delims : List Char) (best : Char) (maxCols : Nat)
    (line : List Char) : List (List Char) :=
  let parts := chSplit best line
  if parts.length = maxCols then parts
  else
    match delims.find? (fun d => d != best && (chSplit d line).length == maxCols) with
    | some d => chSplit d line
    | none => [line]

/-- The mixed-delimiter fallback parser of `load_data` lines 114-153.  The
whole content is stripped and split on newlines without blank-line skipping;
it produces a table only when there are at least two lines and the best header
split has more than one field.  Cells come from `pd.DataFrame` on raw string
lists, so empty strings stay non-null and only padding is null. -/
def fallbackParse (content : String) (delims : List Char) : Option Df :=
  let ls := chSplit '\n' (trimAscii content.data)
  if 1 < ls.length then
    match ls with
    | [] => none
    | hdr :: _ =>
      let mc := (bestHeader delims hdr).1
      match (bestHeader delims hdr).2 with
      | none => none
      | some b =>
        if 1 < mc then
          match ls.map (parseLine delims b mc) with
          | [] => none
          | h :: body =>
            some ⟨h.map String.mk,
              body.map (fun r =>
                r.map (fun f => some (String.mk f)) ++
                  List.replicate (mc - r.length) (none : Cell))⟩
        else none
  else none

/-- The delimiter list the text path actually iterates: the prioritised list
when the decoded content is truthy (`if file_content:`), the base list
otherwise. -/
def usedDelims (content : String) : List Char :=
  if content ≠ "" then orderedDelims content else baseDelims

/-- The whole text path of `load_data` (lines 48-155) on the decoded content:
delimiter prioritisation, the encoding × delimiter loops, then the
mixed-delimiter fallback when no parse was bound or the bound parse is a
single column with more than one row.  The Python truthiness test
`if file_content:` is the `content ≠ ""` guard. -/
def textPath (content : String) : TextOut :=
  let delims := usedDelims content
  let r := encLoop content delims encodings none []
  let trig := match r.df with
    | none => true
    | some t => t.ncols == 1 && decide (1 < t.nrows)
  if trig then
    let ws := r.ws ++ [fallbackNoticeMsg]
    if content ≠ "" then
      match fallbackParse content delims with
      | some t => ⟨some t, ws ++ [fallbackDoneMsg], r.acc⟩
      | none => ⟨r.df, ws, r.acc⟩
    else ⟨r.df, ws, r.acc⟩
  else r

/-- The fallback trigger of `load_data` line 111, on the result of the main
loops: `df is None or (df.shape[1] == 1 and len(df) > 1)`.  Note this is not
"no pair survived the checks": a rejected multi-column or single-row parse
leaves `df` bound in a shape that does not fire the trigger. -/
def fallbackTrigger (content : String) : Bool :=
  match (encLoop content (usedDelims content) encodings none []).df with
  | none => true
  | some t => t.ncols == 1 && decide (1 < t.nrows)

/-- The simplified CSV loop of the unrecognised-extension branch (lines
173-188): base delimiter order, no re-prioritisation, no consistency check, no
mixed-delimiter fallback, and no warning on an empty or single-column parse. -/
def fbCsvDelims (content : String) (e : Encoding) :
    List Char → Option Df → List String → Option Df × List String
  | [], df, ws => (df, ws)
  | d :: rest, df, ws =>
    match readCsv content d with
    | .error _ => fbCsvDelims content e rest df (ws ++ [fbCsvFailMsg d e])
    | .ok t =>
      if t.rows.isEmpty || t.ncols == 1 then fbCsvDelims content e rest (some t) ws
      else (some t, ws)

/-- Encoding loop of the unrecognised-extension branch. -/
def fbCsvEnc (content : String) :
    List Encoding → Option Df → List String → Option Df × List String
  | [], df, ws => (df, ws)
  | e :: rest, df, ws =>
    let r := fbCsvDelims content e baseDelims df ws
    match r.1 with
    | some t => (some t, r.2)
    | none => fbCsvEnc content rest none r.2

/-- Warning for dropped all-null rows. -/
def droppedRowsMsg (k : Nat) : String :=
  "Dropped " ++ toString k ++ " entirely empty rows."

/-- Warning for dropped all-null columns. -/
def droppedColsMsg (k : Nat) : String :=
  "Dropped " ++ toString k ++ " entirely empty columns."

/-- The pruning step of `load_data` lines 193-200: drop rows that are entirely
null, then columns that are entirely null over the remaining rows, recording a
warning with each dropped count. -/
def pruneDf (t : Df) : Df × List String :=
  let rows1 := t.rows.filter (fun r => r.any (·.isSome))
  let keep := (List.range t.ncols).filter
    (fun j => rows1.any (fun r => (r.getD j none).isSome))
  let t2 : Df := ⟨keep.map (fun j => t.header.getD j ""),
    rows1.map (fun r => keep.map (fun j => r.getD j none))⟩
  let ws1 := if rows1.length < t.nrows then [droppedRowsMsg (t.nrows - rows1.length)] else []
  let ws2 := if keep.length < t.ncols then [droppedColsMsg (t.ncols - keep.length)] else []
  (t2, ws1 ++ ws2)

/-- The fatal error of `load_data` line 191 (`ValueError`, the spec's
`UnparsableSource`). -/
inductive LoadErr | unparsable
deriving DecidableEq

/-- A source: an in-memory stream with an optional `name` attribute and its
decoded text body. -/
structure Source where
  name : Option String
  content : String
deriving DecidableEq

/-- Model of `os.path.splitext(...)[1].lower()` for the plain file names in
scope: the part from the last dot, lower-cased, empty when there is no dot or
the only dot is a leading one. -/
def extOf (n : String) : String :=
  match chSplit '.' n.data with
  | [] => ""
  | [_] => ""
  | h :: t =>
    if h = [] ∧ t.length = 1 then ""
    else "." ++ lowerStr (String.mk ((h :: t).getLastD []))

/-- Extension resolution of `load_data` lines 36-44: a stream without a `name`
attribute is silently assumed to be `.csv`. -/
def extensionOf (s : Source) : String :=
  match s.name with
  | some n => extOf n
  | none => ".csv"

/-- Extensions of the delimited-text branch. -/
def textExts : List String := [".csv", ".tsv", ".txt"]

/-- Extensions of the spreadsheet branch. -/
def excelExts : List String := [".xlsx", ".xls"]

/-- Shared tail of `load_data` (lines 190-202): raise when no parse was bound,
else prune and return. -/
def finishLoad (df : Option Df) (ft : String) (ws : List String) :
    Except LoadErr (Df × String × List String) :=
  match df with
  | none => .error .unparsable
  | some t => .ok ((pruneDf t).1, ft, ws ++ (pruneDf t).2)

/-- `load_data`.  The spreadsheet branch models `pd.read_excel` as always
raising: binary spreadsheet decoding is outside this embedding and no claim
exercises spreadsheet content. -/
def loadData (src : Source) : Except LoadErr (Df × String × List String) :=
  let ext := extensionOf src
  if ext ∈ textExts then
    let r := textPath src.content
    finishLoad r.df (dropStr ext 1) r.ws
  else if ext ∈ excelExts then
    finishLoad none (dropStr ext 1) (encodings.map excelFailMsg)
  else
    let r := fbCsvEnc src.content encodings none [unsupportedMsg ext]
    finishLoad r.1 "csv_fallback" r.2

/-- A parsed numeric value `mant / 10 ^ exp`, with trailing fractional zeros
stripped so that equal values have equal representations and `exp = 0`
characterises integral values. -/
structure NumV where
  mant : Int
  exp : Nat
deriving DecidableEq

/-- Digit test. -/
def isDigitCh (c : Char) : Bool := '0' ≤ c && c ≤ '9'

/-- All characters are digits. -/
def allDigits (l : List Char) : Bool := l.all isDigitCh

/-- Value of a digit string. -/
def digitsToNat (l : List Char) : Nat := l.foldl (fun a c => 10 * a + (c.toNat - 48)) 0

/-- Model of `pandas.to_numeric(errors="coerce")` on one cell, for plain
decimal literals: optional surrounding whitespace, optional sign, digits with
at most one decimal point.  Scientific notation, infinities and thousands
separators are not modelled; no claim depends on them. -/
def parseNumeric (s : String) : Option NumV :=
  let l := trimAscii s.data
  let signed : Bool × List Char :=
    match l with
    | '-' :: t => (true, t)
    | '+' :: t => (false, t)
    | _ => (false, l)
  let sgn := fun (n : Nat) => if signed.1 then -(n : Int) else (n : Int)
  match chSplit '.' signed.2 with
  | [ip] =>
    if ip ≠ [] ∧ allDigits ip then some ⟨sgn (digitsToNat ip), 0⟩ else none
  | [ip, fp] =>
    if ip ++ fp ≠ [] ∧ allDigits ip ∧ allDigits fp then
      let fp2 := (fp.reverse.dropWhile (· == '0')).reverse
      some ⟨sgn (digitsToNat (ip ++ fp2)), fp2.length⟩
    else none
  | _ => none

/-- Model of `pandas.to_datetime(errors="coerce", dayfirst=True)` on one cell
for the two formats the inputs in scope can contain, `YYYY-MM-DD` and
`DD/MM/YYYY`, encoded as `y * 10000 + m * 100 + d`; any other string gives
null. -/
def parseDatetime (s : String) : Option Nat :=
  let l := trimAscii s.data
  match chSplit '-' l with
  | [y, m, d] =>
    if y.length = 4 ∧ m.length = 2 ∧ d.length = 2 ∧ allDigits (y ++ m ++ d) ∧
        1 ≤ digitsToNat m ∧ digitsToNat m ≤ 12 ∧ 1 ≤ digitsToNat d ∧ digitsToNat d ≤ 31 then
      some (digitsToNat y * 10000 + digitsToNat m * 100 + digitsToNat d)
    else none
  | _ =>
    match chSplit '/' l with
    | [d, m, y] =>
      if y.length = 4 ∧ m.length = 2 ∧ d.length = 2 ∧ allDigits (y ++ m ++ d) ∧
          1 ≤ digitsToNat m ∧ digitsToNat m ≤ 12 ∧ 1 ≤ digitsToNat d ∧ digitsToNat d ≤ 31 then
        some (digitsToNat y * 10000 + digitsToNat m * 100 + digitsToNat d)
      else none
    | _ => none

/-- The truthy strings of the boolean heuristic. -/
def trueStrs : List String := ["true", "1", "yes", "y"]

/-- The falsy strings of the boolean heuristic. -/
def falseStrs : List String := ["false", "0", "no", "n"]

/-- Boolean normalisation of `infer_and_coerce_datatypes` lines 256-259: the
cell rendered through `astype(str)` (null prints as `nan`), lower-cased,
stripped, then mapped through the two value lists. -/
def boolParse (c : Cell) : Option Bool :=
  let t := String.mk (trimAscii (lowerStr (c.getD "nan")).data)
  if t ∈ trueStrs then some true
  else if t ∈ falseStrs then some false
  else none

/-- The numeric parse of a whole column (`pd.to_numeric(col, errors="coerce")`). -/
def numericCells (cells : List Cell) : List (Option NumV) :=
  cells.map (fun c => c.bind parseNumeric)

/-- Successful numeric parses (`numeric_series.notna().sum()`). -/
def numericHits (cells : List Cell) : Nat := (numericCells cells).countP (·.isSome)

/-- The numeric threshold `numeric_ratio > 0.8`, denominator the full column
length. -/
def numericOk (cells : List Cell) : Bool :=
  decide (4 * cells.length < 5 * numericHits cells)

/-- Every successfully parsed value has zero fractional part
(`(numeric_series.dropna() % 1 == 0).all()`). -/
def allIntegral (cells : List Cell) : Bool :=
  ((numericCells cells).filterMap id).all (fun v => v.exp == 0)

/-- Whether a parsed value fits in the int64 range `[-2^63, 2^63 - 1]`.  The
`astype(pd.Int64Dtype())` commit raises `TypeError` for integral values
outside this range (the safe-cast check of the underlying float64
representation; the float rounding near the boundary is not modelled, and no
claim probes the boundary). -/
def fitsInt64 (v : NumV) : Bool :=
  decide (-(2 ^ 63) ≤ v.mant) && decide (v.mant < 2 ^ 63)

/-- Every successfully parsed value survives the Int64 cast. -/
def allInt64Range (cells : List Cell) : Bool :=
  ((numericCells cells).filterMap id).all fitsInt64

/-- The datetime parse of a whole column. -/
def dtCells (cells : List Cell) : List (Option Nat) :=
  cells.map (fun c => c.bind parseDatetime)

/-- Successful datetime parses. -/
def dtHits (cells : List Cell) : Nat := (dtCells cells).countP (·.isSome)

/-- The datetime threshold `datetime_ratio > 0.8`. -/
def dtOk (cells : List Cell) : Bool :=
  decide (4 * cells.length < 5 * dtHits cells)

/-- The boolean mapping of a whole column. -/
def boolCells (cells : List Cell) : List (Option Bool) := cells.map boolParse

/-- Successful boolean mappings. -/
def boolHits (cells : List Cell) : Nat := (boolCells cells).countP (·.isSome)

/-- The boolean threshold `boolean_ratio > 0.8`. -/
def boolOk (cells : List Cell) : Bool :=
  decide (4 * cells.length < 5 * boolHits cells)

/-- Distinct non-null raw values (`col.nunique()`). -/
def nuniqueRaw (cells : List Cell) : Nat := (cells.filterMap id).dedup.length

/-- The six types the coercion stage can commit to. -/
inductive Dtype | int64 | float64 | datetime | boolean | category | text
deriving DecidableEq

/-- The dtype strings recorded in `inferred_dtypes`. -/
def dtypeName : Dtype → String
  | .int64 => "Int64"
  | .float64 => "Float64"
  | .datetime => "datetime64[ns]"
  | .boolean => "boolean"
  | .category => "category"
  | .text => "string"

/-- A typed cell value. -/
inductive TVal
  | i (n : Int)
  | f (v : NumV)
  | d (n : Nat)
  | b (v : Bool)
  | s (v : String)
deriving DecidableEq

/-- One column of the coercion loop of `infer_and_coerce_datatypes` lines
224-276: candidates in the fixed order numeric, datetime, boolean, then the
categorical/text fallback; each threshold is `ratio > 0.8` over the full
column length; the Boolean component is the partial-parse warning flag
(`ratio < 1.0` on the committed candidate).  The Int64 commit
(`numeric_series.astype(pd.Int64Dtype())`, line 232) raises `TypeError` when
some integral value falls outside the int64 range; that is the error
branch. -/
def coerceColumn (cells : List Cell) : Except Unit (Dtype × List (Option TVal) × Bool) :=
  if numericOk cells then
    if allIntegral cells then
      if allInt64Range cells then
        .ok (.int64, (numericCells cells).map (fun o => o.map (fun v => TVal.i v.mant)),
          decide (numericHits cells < cells.length))
      else .error ()
    else
      .ok (.float64, (numericCells cells).map (fun o => o.map TVal.f),
        decide (numericHits cells < cells.length))
  else if dtOk cells then
    .ok (.datetime, (dtCells cells).map (fun o => o.map TVal.d),
      decide (dtHits cells < cells.length))
  else if boolOk cells then
    .ok (.boolean, (boolCells cells).map (fun o => o.map TVal.b),
      decide (boolHits cells < cells.length))
  else if decide (2 * nuniqueRaw cells < cells.length) && decide (1 < nuniqueRaw cells) then
    .ok (.category, cells.map (fun c => c.map TVal.s), false)
  else
    .ok (.text, cells.map (fun c => c.map TVal.s), false)

/-- The committed dtype of a column, when the column coercion returns. -/
def coerceDtype (cells : List Cell) : Option Dtype :=
  (coerceColumn cells).toOption.map (fun r => r.1)

/-- A typed column. -/
structure TCol where
  name : String
  dtype : Dtype
  cells : List (Option TVal)
deriving DecidableEq

/-- A typed table (the TypedTable of the spec). -/
structure TDf where
  cols : List TCol
  rowCount : Nat
deriving DecidableEq

/-- The cells of column `j` of a raw table. -/
def colCells (t : Df) (j : Nat) : List Cell := t.rows.map (fun r => r.getD j none)

/-- The partial-parse warning of the coercion stage (percentage figure elided). -/
def coerceWarnMsg (nm : String) (dt : Dtype) : String :=
  match dt with
  | .int64 => "Column " ++ nm ++ " was coerced to numeric, but some values were unparseable."
  | .float64 => "Column " ++ nm ++ " was coerced to numeric, but some values were unparseable."
  | .datetime => "Column " ++ nm ++ " was coerced to datetime, but some values were unparseable or in inconsistent formats."
  | .boolean => "Column " ++ nm ++ " was coerced to boolean, but some values were unparseable."
  | _ => ""

/-- The exceptions the coercion stage can raise: `ZeroDivisionError` from the
ratio denominator on a zero-row table, or `TypeError` from the Int64 cast on
an out-of-range integral column. -/
inductive CoerceErr | zeroDiv | typeErr
deriving DecidableEq

/-- The column loop of `infer_and_coerce_datatypes`, in column order; the
first `TypeError` from a column's Int64 cast aborts the loop as the Python
exception would. -/
def coerceCols (t : Df) : List (Nat × String) → Except CoerceErr (List (TCol × Bool))
  | [] => .ok []
  | p :: ps =>
    match coerceColumn (colCells t p.1) with
    | .error _ => .error .typeErr
    | .ok r =>
      match coerceCols t ps with
      | .error e => .error e
      | .ok rest => .ok ((⟨p.2, r.1, r.2.1⟩, r.2.2) :: rest)

/-- `infer_and_coerce_datatypes`.  The division `... / len(df_coerced)` raises
`ZeroDivisionError` exactly when the table has at least one column and no rows
(it fires in the first column, before any cast); otherwise the Int64 cast of
an out-of-range integral column raises `TypeError`.  `original_dtypes` records
the pre-coercion pandas representation; this embedding keeps raw columns as
strings, so it is recorded as `object` (no claim reads these strings). -/
def inferAndCoerce (t : Df) :
    Except CoerceErr (TDf × List (String × String) × List (String × String) × List String) :=
  if t.ncols ≠ 0 ∧ t.nrows = 0 then .error .zeroDiv
  else
    match coerceCols t t.header.enum with
    | .error e => .error e
    | .ok cs =>
      .ok (⟨cs.map Prod.fst, t.nrows⟩,
        t.header.map (fun nm => (nm, "object")),
        cs.map (fun p => (p.1.name, dtypeName p.1.dtype)),
        cs.filterMap (fun p => if p.2 then some (coerceWarnMsg p.1.name p.1.dtype) else none))

/-- The column roles. -/
inductive Role | dateTime | numericMetric | categoricalDimension | identifier | other
deriving DecidableEq

/-- `pd.api.types.is_numeric_dtype` on the six emitted dtypes: pandas counts
the nullable boolean dtype as numeric. -/
def isNumericDtype : Dtype → Bool
  | .int64 => true
  | .float64 => true
  | .boolean => true
  | _ => false

/-- `select_dtypes(include=["number"])` membership on the six emitted dtypes:
unlike `is_numeric_dtype`, the numpy `number` selector excludes booleans. -/
def isNumberDtype : Dtype → Bool
  | .int64 => true
  | .float64 => true
  | _ => false

/-- Distinct non-null typed values (`df[col].nunique()`). -/
def colNunique (c : TCol) : Nat := (c.cells.filterMap id).dedup.length

/-- The identifier heuristic: `unique_count / row_count > 0.9` and
`row_count > 10`, embedded as integer cross-multiplication. -/
def identLike (c : TCol) : Bool :=
  decide (9 * c.cells.length < 10 * colNunique c) && decide (10 < c.cells.length)

/-- The per-column classification of `infer_column_roles` lines 293-307.  The
`nunique / len` division raises `ZeroDivisionError` on a zero-length column in
the two branches that compute it. -/
def roleOf (c : TCol) : Except Unit Role :=
  if c.dtype = .datetime then .ok .dateTime
  else if isNumericDtype c.dtype then
    if c.cells.length = 0 then .error ()
    else if identLike c then .ok .identifier
    else .ok .numericMetric
  else if c.dtype = .category ∨ c.dtype = .text then
    if c.cells.length = 0 then .error ()
    else if identLike c then .ok .identifier
    else .ok .categoricalDimension
  else .ok .other

/-- The column loop of `infer_column_roles`, in column order; the first
`ZeroDivisionError` aborts the loop as the Python exception would. -/
def rolesList : List TCol → Except Unit (List (String × Role))
  | [] => .ok []
  | c :: cs =>
    match roleOf c with
    | .error e => .error e
    | .ok r =>
      match rolesList cs with
      | .error e => .error e
      | .ok rs => .ok ((c.name, r) :: rs)

/-- `infer_column_roles`. -/
def inferColumnRoles (t : TDf) : Except Unit (List (String × Role)) :=
  rolesList t.cols

/-- Table orientation. -/
inductive Orient | wide | long
deriving DecidableEq

/-- The value-column name vocabulary of `detect_orientation`. -/
def valueNames : List String := ["value", "metric", "data", "count"]

/-- The variable-column name vocabulary of `detect_orientation`. -/
def variableNames : List String := ["variable", "category", "type", "attribute"]

/-- The numeric columns of a typed table (`select_dtypes(include=["number"])`). -/
def numberCols (t : TDf) : List TCol := t.cols.filter (fun c => isNumberDtype c.dtype)

/-- The non-numeric columns (`select_dtypes(exclude=["number"])`). -/
def otherCols (t : TDf) : List TCol := t.cols.filter (fun c => !isNumberDtype c.dtype)

/-- Some non-numeric column has a value-like lower-cased name. -/
def hasValueCol (t : TDf) : Bool :=
  (otherCols t).any (fun c => lowerStr c.name ∈ valueNames)

/-- Some non-numeric column has a variable-like lower-cased name. -/
def hasVariableCol (t : TDf) : Bool :=
  (otherCols t).any (fun c => lowerStr c.name ∈ variableNames)

/-- Rule 1 of `detect_orientation`: value-like and variable-like non-numeric
column names present and at most two numeric columns. -/
def longNameRule (t : TDf) : Bool :=
  hasValueCol t && hasVariableCol t && decide ((numberCols t).length ≤ 2)

/-- Rule 2 of `detect_orientation`: numeric columns exceed 70% of all columns
(`len(numeric_cols) / df.shape[1] > 0.7`, embedded exactly as integers). -/
def wideShare (t : TDf) : Bool :=
  decide (7 * t.cols.length < 10 * (numberCols t).length)

/-- Rule 3 of `detect_orientation`: non-numeric columns exceed 50% of all
columns and at most two numeric columns. -/
def longShare (t : TDf) : Bool :=
  decide (t.cols.length < 2 * (otherCols t).length) && decide ((numberCols t).length ≤ 2)

/-- `detect_orientation`.  The division `len(numeric_cols) / df.shape[1]`
raises `ZeroDivisionError` exactly when the table has no columns and the first
rule did not fire (it cannot fire without columns). -/
def detectOrient (t : TDf) : Except Unit Orient :=
  if longNameRule t then .ok .long
  else if t.cols.length = 0 then .error ()
  else if wideShare t then .ok .wide
  else if longShare t then .ok .long
  else .ok .wide

/-- The metadata record returned by the orchestrator. -/
structure IngMeta where
  fileType : String
  shape : Orient
  columnRoles : List (String × Role)
  originalDtypes : List (String × String)
  inferredDtypes : List (String × String)
  warns : List String
deriving DecidableEq

/-- Errors the orchestrator can surface: the loader's `ValueError`, a
downstream `ZeroDivisionError`, or the coercion stage's `TypeError`. -/
inductive PErr | unparsable | zeroDivision | typeError
deriving DecidableEq

/-- `process_gym_data`: load, coerce, classify roles, detect orientation,
accumulating warnings in call order. -/
def processGymData (src : Source) : Except PErr (TDf × IngMeta) :=
  match loadData src with
  | .error _ => .error .unparsable
  | .ok (df, ft, lws) =>
    match inferAndCoerce df with
    | .error .zeroDiv => .error .zeroDivision
    | .error .typeErr => .error .typeError
    | .ok (tdf, od, idt, tws) =>
      match inferColumnRoles tdf with
      | .error _ => .error .zeroDivision
      | .ok roles =>
        match detectOrient tdf with
        | .error _ => .error .zeroDivision
        | .ok o => .ok (tdf, ⟨ft, o, roles, od, idt, lws ++ tws⟩)

/-- The error kind of a pipeline run, if any. -/
def perrOf {α : Type} : Except PErr α → Option PErr
  | .error p => some p
  | .ok _ => none

/-- The full rejection test of the main delimiter loop, read off the source:
an attempt survives when the parse succeeds, is non-empty, has more than one
column, and passes the row-width consistency check. -/
def survives (content : String) (d : Char) : Bool :=
  match readCsv content d with
  | .error _ => false
  | .ok t => !(t.rows.isEmpty || t.ncols == 1) && !stdRejects t

/-- The rejection test as the claim states it, with only the two named checks
(single column, standard deviation above 1) and no empty-table rejection. -/
def claimSurvives (content : String) (d : Char) : Bool :=
  match readCsv content d with
  | .error _ => false
  | .ok t => !(t.ncols == 1) && !stdRejects t

/-- Whether one read attempt produces a non-empty multi-column table (the
product the claim says is required to avoid the fatal error). -/
def multiColOk (content : String) (d : Char) : Bool :=
  match readCsv content d with
  | .error _ => false
  | .ok t => decide (2 ≤ t.ncols) && !t.rows.isEmpty

/-- Whether a raw cell fails coercion under the committed column type: the
numeric, datetime and boolean parsers yield null on it, and under the
categorical/text fallback only a null cell stays null. -/
def cellFails (dt : Dtype) (c : Cell) : Bool :=
  match dt with
  | .int64 => (c.bind parseNumeric).isNone
  | .float64 => (c.bind parseNumeric).isNone
  | .datetime => (c.bind parseDatetime).isNone
  | .boolean => (boolParse c).isNone
  | .category => c.isNone
  | .text => c.isNone

/-- Placeholder column used as a `getD` default. -/
def dummyCol : TCol := ⟨"", .text, []⟩

/-- The per-cell action of a committed column type, read off the branches of
the coercion loop. -/
def coerceCellMap (dt : Dtype) (c : Cell) : Option TVal :=
  match dt with
  | .int64 => (c.bind parseNumeric).map (fun v => TVal.i v.mant)
  | .float64 => (c.bind parseNumeric).map TVal.f
  | .datetime => (c.bind parseDatetime).map TVal.d
  | .boolean => (boolParse c).map TVal.b
  | .category => c.map TVal.s
  | .text => c.map TVal.s

/-- A numeric column with 100 rows and 95 distinct values (the identifier
example of the claim). -/
def exIdCol : TCol :=
  ⟨"user_id", .int64,
    (List.range 95).map (fun k => some (TVal.i k)) ++ List.replicate 5 (some (TVal.i 0))⟩

/-- The same column shape with only 40 distinct values (the numeric-metric
example of the claim). -/
def exMetricCol : TCol :=
  ⟨"user_id", .int64,
    (List.range 40).map (fun k => some (TVal.i k)) ++ List.replicate 60 (some (TVal.i 0))⟩

/-- The typed table `[date, category, value]` with one numeric column. -/
def exLongTdf : TDf :=
  ⟨[⟨"date", .datetime, [some (TVal.d 20240101)]⟩,
    ⟨"category", .category, [some (TVal.s "a")]⟩,
    ⟨"value", .int64, [some (TVal.i 1)]⟩], 1⟩

/-- The typed table `[date, sales_q1, sales_q2, sales_q3]` with three of four
columns numeric. -/
def exWideTdf : TDf :=
  ⟨[⟨"date", .datetime, [some (TVal.d 20240101)]⟩,
    ⟨"sales_q1", .int64, [some (TVal.i 1)]⟩,
    ⟨"sales_q2", .int64, [some (TVal.i 2)]⟩,
    ⟨"sales_q3", .int64, [some (TVal.i 3)]⟩], 1⟩

/-- The first example column of the coercion claim. -/
def exNonNumCells : List Cell := ["1", "2", "3", "x"].map some

/-- The second example column of the coercion claim. -/
def exIntCells : List Cell := ["1", "2", "3", "4", "5"].map some

/-- A small well-formed source used to instantiate pipeline theorems. -/
def exSrc : Source := ⟨some "t.csv", "a,b\n1,2\n3,4"⟩

/-- The mixed-delimiter content of the fallback claim: comma header and one
semicolon-delimited data row, comma being more frequent overall. -/
def exMixed : String := "a,b,c\n4,5,6\n1;2;3"

/-- A fully numeric, fully integral column whose values exceed the int64
range, so the Int64 cast raises. -/
def exBigCells : List Cell := ["99999999999999999999", "99999999999999999998"].map some

/-- A source whose first column is integral but outside int64 range. -/
def exBigSrc : Source := ⟨some "big.csv", "a,b\n99999999999999999999,1\n99999999999999999998,2"⟩

/-- The table the loader returns on `exBigSrc`. -/
def exBigDf : Df :=
  ⟨["a", "b"],
    [[some "99999999999999999999", some "1"], [some "99999999999999999998", some "2"]]⟩

/-- The table the loader returns on `exSrc`. -/
def exDf : Df := ⟨["a", "b"], [[some "1", some "2"], [some "3", some "4"]]⟩

/-- A raw single-column table of truthy/falsy strings. -/
def exBoolDf : Df := ⟨["flag"], [[some "yes"], [some "no"]]⟩

/-- The boolean column the coercion stage produces from `exBoolDf`. -/
def exBoolCol : TCol := ⟨"flag", .boolean, [some (TVal.b true), some (TVal.b false)]⟩

/-- The full coercion result on `exBoolDf`. -/
def exBoolRes : TDf × List (String × String) × List (String × String) × List String :=
  (⟨[exBoolCol], 2⟩, [("flag", "object")], [("flag", "boolean")], [])

/-! ## Theorems -/

/-- A non-empty typed column always receives a role. -/
theorem roleOf_ok_of_pos (c : TCol) (h : 0 < c.cells.length) : ∃ r, roleOf c = .ok r := by
  have h0 : c.cells.length ≠ 0 := Nat.pos_iff_ne_zero.mp h
  cases hc : c.dtype <;>
    simp [roleOf, hc, h0, isNumericDtype] <;>
    cases hil : identLike c <;> simp [hil, isNumericDtype]

/-- Classifying a list of non-empty columns succeeds and yields one role per
column. -/
theorem rolesListOk (cs : List TCol) (h : ∀ c ∈ cs, 0 < c.cells.length) :
    ∃ rs, rolesList cs = .ok rs ∧ rs.length = cs.length := by
  induction cs with
  | nil => exact ⟨[], rfl, rfl⟩
  | cons c cs ih =>
    obtain ⟨r, hr⟩ := roleOf_ok_of_pos c (h c (by simp))
    obtain ⟨rs, hrs, hlen⟩ := ih (fun x hx => h x (by simp [hx]))
    exact ⟨(c.name, r) :: rs, by simp [rolesList, hr, hrs], by simp [hlen]⟩

/-- C1 counterexample: the column of two 20-digit integral values is
numeric-committed (ratio 1) with every parsed value of zero fractional part,
yet it does not become Int64-nullable: the Int64 cast raises `TypeError`
because the values exceed the int64 range — refuting the claimed
`Int64 exactly when all parsed values are integral`. -/
theorem c1_counterexample :
    numericOk exBigCells = true ∧ allIntegral exBigCells = true ∧
      coerceColumn exBigCells = .error () := by
  decide

/-- C1 (amended): for every raw column the coercion engine evaluates numeric,
timestamp, boolean, then the categorical/text fallback in that fixed order,
committing to the first candidate whose parse-success ratio strictly exceeds
0.8 with the full column length as denominator; a committed numeric column
becomes Int64 exactly when every parsed value is integral and fits the int64
range — if some integral value falls outside that range, the Int64 cast
raises `TypeError` instead — else Float64, and the partial-parse warning
fires exactly when the ratio is below 1.  The column `["1","2","3","x"]`
(ratio 3/4) is not numeric and ends as text, and `["1","2","3","4","5"]`
becomes Int64 with no warning. -/
theorem c1_coercion_order_thresholds :
    (∀ cells : List Cell, 0 < cells.length →
      (coerceDtype cells = some .int64 ↔
        numericOk cells = true ∧ allIntegral cells = true ∧ allInt64Range cells = true) ∧
      (coerceColumn cells = .error () ↔
        numericOk cells = true ∧ allIntegral cells = true ∧ allInt64Range cells = false) ∧
      (coerceDtype cells = some .float64 ↔
        numericOk cells = true ∧ allIntegral cells = false) ∧
      (coerceDtype cells = some .datetime ↔ numericOk cells = false ∧ dtOk cells = true) ∧
      (coerceDtype cells = some .boolean ↔
        numericOk cells = false ∧ dtOk cells = false ∧ boolOk cells = true) ∧
      ((coerceDtype cells = some .category ∨ coerceDtype cells = some .text) ↔
        numericOk cells = false ∧ dtOk cells = false ∧ boolOk cells = false) ∧
      (numericOk cells = true →
        ∀ r, coerceColumn cells = .ok r → (r.2.2 = true ↔ numericHits cells < cells.length))) ∧
    (numericHits exNonNumCells = 3 ∧ exNonNumCells.length = 4 ∧
      numericOk exNonNumCells = false ∧ coerceDtype exNonNumCells = some .text) ∧
    (coerceDtype exIntCells = some .int64 ∧
      ∀ r, coerceColumn exIntCells = .ok r → r.2.2 = false) := by
  refine ⟨?_, by decide, by decide, ?_⟩
  · intro cells _
    cases hn : numericOk cells <;> cases hi : allIntegral cells <;>
      cases hrg : allInt64Range cells <;> cases hd : dtOk cells <;>
        cases hb : boolOk cells <;>
          cases hcat : decide (2 * nuniqueRaw cells < cells.length) &&
              decide (1 < nuniqueRaw cells) <;>
            simp [coerceColumn, coerceDtype, Except.toOption, hn, hi, hrg, hd, hb, hcat]
  · intro r hr
    have : coerceColumn exIntCells =
        .ok (.int64, exIntCells.map (fun c => (c.bind parseNumeric).map
          (fun v => TVal.i v.mant)), false) := by decide
    rw [this] at hr
    cases hr
    rfl

/-- Witness for the universally quantified part of the C1 theorem at the
concrete integral column. -/
theorem c1_coercion_order_thresholds_witness :
    0 < exIntCells.length ∧ coerceDtype exIntCells = some .int64 :=
  ⟨by decide, ((c1_coercion_order_thresholds.1 exIntCells (by decide)).1).mpr (by decide)⟩

/-- C7: the role classifier gives every column of a (non-empty) typed table
exactly one role: Date/time for timestamp columns; for numeric columns,
Identifier exactly when more than 90% of the rows are distinct and there are
more than 10 rows, else Numeric metric; the same rule separates Identifier
from Categorical dimension for categorical/text columns.  A numeric column
with 95 distinct values out of 100 rows is an Identifier, with 40 it is a
Numeric metric. -/
theorem c7_role_classifier :
    (∀ c : TCol, 0 < c.cells.length →
      (∃ r, roleOf c = .ok r) ∧
      (c.dtype = .datetime → roleOf c = .ok .dateTime) ∧
      ((c.dtype = .int64 ∨ c.dtype = .float64) →
        (roleOf c = .ok .identifier ↔ identLike c = true) ∧
        (roleOf c = .ok .numericMetric ↔ identLike c = false)) ∧
      ((c.dtype = .category ∨ c.dtype = .text) →
        (roleOf c = .ok .identifier ↔ identLike c = true) ∧
        (roleOf c = .ok .categoricalDimension ↔ identLike c = false))) ∧
    (∀ t : TDf, (∀ c ∈ t.cols, 0 < c.cells.length) →
      ∃ rs, inferColumnRoles t = .ok rs ∧ rs.length = t.cols.length) ∧
    (exIdCol.cells.length = 100 ∧ colNunique exIdCol = 95 ∧
      roleOf exIdCol = .ok .identifier) ∧
    (exMetricCol.cells.length = 100 ∧ colNunique exMetricCol = 40 ∧
      roleOf exMetricCol = .ok .numericMetric) := by
  refine ⟨?_, fun t h => rolesListOk t.cols h, by decide, by decide⟩
  intro c h
  have h0 : c.cells.length ≠ 0 := Nat.pos_iff_ne_zero.mp h
  refine ⟨roleOf_ok_of_pos c h, fun hd => by simp [roleOf, hd], fun hd => ?_, fun hd => ?_⟩ <;>
    rcases hd with hd | hd <;>
      cases hil : identLike c <;>
        simp [roleOf, hd, h0, hil, isNumericDtype]

/-- Witness for the universally quantified parts of the C7 theorem at the
concrete identifier column. -/
theorem c7_role_classifier_witness :
    0 < exIdCol.cells.length ∧ roleOf exIdCol = .ok .identifier :=
  ⟨by decide,
    ((c7_role_classifier.1 exIdCol (by decide)).2.2.1 (Or.inl rfl)).1.mpr (by decide)⟩

/-- C8: orientation detection applies, in order: the name rule (value-like and
variable-like non-numeric names with at most two numeric columns, giving
long), the 70% numeric share (wide), the 50% non-numeric share with at most
two numeric columns (long), else wide.  `[date, category, value]` with one
numeric column is long, `[date, sales_q1, sales_q2, sales_q3]` with three of
four numeric is wide. -/
theorem c8_orientation_rules :
    (∀ t : TDf, t.cols ≠ [] →
      ∃ o, detectOrient t = .ok o ∧
        (o = .long ↔
          (longNameRule t = true ∨ (wideShare t = false ∧ longShare t = true))) ∧
        (o = .wide ↔
          ¬(longNameRule t = true ∨ (wideShare t = false ∧ longShare t = true)))) ∧
    ((numberCols exLongTdf).length = 1 ∧ detectOrient exLongTdf = .ok .long) ∧
    ((numberCols exWideTdf).length = 3 ∧ exWideTdf.cols.length = 4 ∧
      detectOrient exWideTdf = .ok .wide) := by
  refine ⟨?_, by decide, by decide⟩
  intro t h
  have h0 : t.cols.length ≠ 0 := Nat.pos_iff_ne_zero.mp (List.length_pos.mpr h)
  cases h1 : longNameRule t <;> cases h2 : wideShare t <;> cases h3 : longShare t <;>
    simp [detectOrient, h0, h1, h2, h3]

/-- Witness for the universally quantified part of the C8 theorem at the
concrete long-format table. -/
theorem c8_orientation_rules_witness :
    exLongTdf.cols ≠ [] ∧ detectOrient exLongTdf = .ok .long := by
  refine ⟨by decide, ?_⟩
  obtain ⟨o, ho, hl, _⟩ := c8_orientation_rules.1 exLongTdf (by decide)
  rw [ho, hl.mpr (by decide)]

/-- C2 counterexample: on the source `"x\ny"` (extension `.csv`) every
delimiter yields a single-column table, so no read attempt produces a
non-empty multi-column table and the fallback produces nothing, yet the loader
returns a table instead of raising — refuting the claimed
`raises ↔ everything fails to produce a non-empty multi-column table`. -/
theorem c2_counterexample :
    ¬((loadData ⟨some "f.csv", "x\ny"⟩).isOk = false ↔
      ((∀ d ∈ baseDelims, multiColOk "x\ny" d = false) ∧
        fallbackParse "x\ny" (usedDelims "x\ny") = none)) := by
  decide

/-- C3 counterexample: the header-only source `"a,b,c\n"` loads successfully
(as a table pruned to zero columns), but the downstream stages then raise a
`ZeroDivisionError` in orientation detection, so the orchestrator does not
only propagate the loading error — refuting the claim. -/
theorem c3_counterexample :
    (loadData ⟨some "f.csv", "a,b,c\n"⟩).isOk = true ∧
      perrOf (processGymData ⟨some "f.csv", "a,b,c\n"⟩) = some .zeroDivision := by
  decide

/-- C4 counterexample: on the header-only content `"a,b,c\n"` the comma is
first in priority order and survives both checks named by the claim (it
yields three columns and the consistency check does not fire), yet the main
loop accepts no pair at all, because the source also rejects empty parses —
refuting the claimed acceptance rule. -/
theorem c4_counterexample :
    (usedDelims "a,b,c\n").head? = some ',' ∧
      claimSurvives "a,b,c\n" ',' = true ∧
      (textPath "a,b,c\n").acc = none := by
  decide

/-- Once `df` is bound, the delimiter loop can never unbind it. -/
theorem delimLoop_isSome (content : String) (e : Encoding) :
    ∀ (ds : List Char) (t : Df) (ws : List String),
      ((delimLoop content e ds (some t) ws).df).isSome = true := by
  intro ds
  induction ds with
  | nil => intro t ws; simp [delimLoop]
  | cons d rest ih =>
    intro t ws
    cases h : readCsv content d with
    | error er => simpa [delimLoop, h] using ih t (ws ++ [readFailMsg d e])
    | ok t2 =>
      simp only [delimLoop, h]
      split
      · exact ih t2 _
      · split
        · exact ih t2 _
        · rfl

/-- The delimiter loop leaves `df` unbound exactly when it started unbound and
every read attempt raised. -/
theorem delimLoop_none_iff (content : String) (e : Encoding) :
    ∀ (ds : List Char) (df0 : Option Df) (ws : List String),
      (delimLoop content e ds df0 ws).df = none ↔
        (df0 = none ∧ ∀ d ∈ ds, readCsv content d = .error ()) := by
  intro ds
  induction ds with
  | nil => intro df0 ws; simp [delimLoop]
  | cons d rest ih =>
    intro df0 ws
    cases h : readCsv content d with
    | error er => simp [delimLoop, h, ih]
    | ok t =>
      simp only [delimLoop, h]
      split
      · rw [ih]
        simp [h]
      · split
        · rw [ih]
          simp [h]
        · simp [h]

/-- If every read attempt raises, the encoding loop leaves `df` unbound. -/
theorem encLoop_none_of (content : String) (delims : List Char)
    (hall : ∀ d ∈ delims, readCsv content d = .error ()) :
    ∀ (es : List Encoding) (ws : List String),
      (encLoop content delims es none ws).df = none := by
  intro es
  induction es with
  | nil => intro ws; simp [encLoop]
  | cons e rest ih =>
    intro ws
    simp only [encLoop]
    have h := (delimLoop_none_iff content e delims none ws).mpr ⟨rfl, hall⟩
    split
    · rename_i t ht
      rw [h] at ht
      exact absurd ht (by simp)
    · exact ih _

/-- If the encoding loop leaves `df` unbound (and there was at least one
encoding), every read attempt raised. -/
theorem encLoop_none_rev (content : String) (delims : List Char)
    (e : Encoding) (es : List Encoding) (ws : List String)
    (h : (encLoop content delims (e :: es) none ws).df = none) :
    ∀ d ∈ delims, readCsv content d = .error () := by
  revert h
  simp only [encLoop]
  split
  · intro h
    exact absurd h (by simp)
  · rename_i hr
    intro _
    exact ((delimLoop_none_iff content e delims none ws).mp hr).2

/-- Reading empty content always raises (`EmptyDataError`). -/
theorem readCsv_empty (d : Char) : readCsv "" d = .error () := rfl

/-- The fallback parser produces nothing from empty content. -/
theorem fallbackParse_empty (ds : List Char) : fallbackParse "" ds = none := rfl

/-- The text path leaves `df` unbound exactly when every read attempt raised
and the mixed-delimiter fallback produced nothing. -/
theorem textPath_none_iff (content : String) :
    (textPath content).df = none ↔
      ((∀ d ∈ usedDelims content, readCsv content d = .error ()) ∧
        fallbackParse content (usedDelims content) = none) := by
  constructor
  · intro h
    by_cases hc : content = ""
    · subst hc
      exact ⟨fun d _ => readCsv_empty d, fallbackParse_empty _⟩
    · cases hr : (encLoop content (usedDelims content) encodings none []).df with
      | none =>
        have hall : ∀ d ∈ usedDelims content, readCsv content d = .error () :=
          encLoop_none_rev content (usedDelims content) .utf8 [.latin1, .iso88591] []
            (by simpa [encodings] using hr)
        refine ⟨hall, ?_⟩
        simp only [textPath, hr] at h
        rw [if_pos trivial, if_pos hc] at h
        cases hf : fallbackParse content (usedDelims content) with
        | some t => rw [hf] at h; exact absurd h (by simp)
        | none => rfl
      | some t =>
        exfalso
        simp only [textPath, hr] at h
        by_cases htr : (t.ncols == 1 && decide (1 < t.nrows)) = true
        · rw [if_pos htr, if_pos hc] at h
          cases hf : fallbackParse content (usedDelims content) <;>
            rw [hf] at h <;> simp at h
        · rw [if_neg htr, hr] at h
          simp at h
  · intro hand
    have hr : (encLoop content (usedDelims content) encodings none []).df = none :=
      encLoop_none_of content (usedDelims content) hand.1 encodings []
    by_cases hc : content = ""
    · subst hc
      decide
    · simp only [textPath, hr]
      rw [if_pos trivial, if_pos hc, hand.2]

/-- A `finishLoad` raises exactly when `df` is unbound. -/
theorem finishLoad_error_iff (df : Option Df) (ft : String) (ws : List String) :
    finishLoad df ft ws = .error .unparsable ↔ df = none := by
  cases df <;> simp [finishLoad]

/-- On a text-extension source, `load_data` is the text path followed by the
shared raise-or-prune tail. -/
theorem loadData_text (src : Source) (h : extensionOf src ∈ textExts) :
    loadData src =
      finishLoad (textPath src.content).df (dropStr (extensionOf src) 1)
        (textPath src.content).ws := by
  simp [loadData, h]

/-- C2 (amended): for a text-extension source the loader raises the fatal
error exactly when every (encoding, delimiter) read attempt raises an
exception and the mixed-delimiter fallback produces no table; a parse that
merely yields an empty or single-column table prevents the raise even though
it is not a non-empty multi-column table.  A zero-byte source raises, and a
returned table never coexists with the fatal error. -/
theorem c2_fatal_error_characterisation :
    (∀ src : Source, extensionOf src ∈ textExts →
      (loadData src = .error .unparsable ↔
        ((∀ d ∈ usedDelims src.content, readCsv src.content d = .error ()) ∧
          fallbackParse src.content (usedDelims src.content) = none))) ∧
    loadData ⟨some "f.csv", ""⟩ = .error .unparsable ∧
    (∀ (src : Source) (t : Df) (ft : String) (ws : List String),
      loadData src = .ok (t, ft, ws) → loadData src ≠ .error .unparsable) := by
  refine ⟨?_, by decide, ?_⟩
  · intro src h
    rw [loadData_text src h, finishLoad_error_iff, textPath_none_iff]
  · intro src t ft ws hok
    rw [hok]
    simp

/-- Witness for the universally quantified parts of the C2 theorem at the
single-column source, where the loader returns a table although nothing
produced a non-empty multi-column one. -/
theorem c2_fatal_error_characterisation_witness :
    (loadData ⟨some "f.csv", "x\ny"⟩ = .error .unparsable ↔
      ((∀ d ∈ usedDelims "x\ny", readCsv "x\ny" d = .error ()) ∧
        fallbackParse "x\ny" (usedDelims "x\ny") = none)) :=
  c2_fatal_error_characterisation.1 ⟨some "f.csv", "x\ny"⟩ (by decide)

/-- Mapping an option-preserving function commutes with `getD` at the null
default. -/
theorem getD_map_opt {α β : Type} (f : Option α → Option β) (hf : f none = none)
    (l : List (Option α)) (i : Nat) :
    (l.map f).getD i none = f (l.getD i none) := by
  induction l generalizing i with
  | nil => simp [hf]
  | cons a l ih =>
    cases i with
    | zero => simp
    | succ n => simpa using ih n

/-- A null cell stays null under every committed type. -/
theorem coerceCellMap_none (dt : Dtype) : coerceCellMap dt none = none := by
  have hb : boolParse none = none := by decide
  cases dt <;> simp [coerceCellMap, hb]

/-- A cell that fails coercion under the committed type maps to null. -/
theorem coerceCellMap_fail (dt : Dtype) (c : Cell) (h : cellFails dt c = true) :
    coerceCellMap dt c = none := by
  cases dt <;>
    simp [cellFails, Option.isNone_iff_eq_none] at h <;>
      simp [coerceCellMap, h] <;> exact h

/-- The coerced cells of a returned column are exactly the per-cell action of
its committed type. -/
theorem coerceColumn_cells_eq (cells : List Cell)
    (r : Dtype × List (Option TVal) × Bool) (h : coerceColumn cells = .ok r) :
    r.2.1 = cells.map (coerceCellMap r.1) := by
  unfold coerceColumn at h
  repeat' split at h
  all_goals cases h
  all_goals simp only [numericCells, dtCells, boolCells, List.map_map]
  all_goals rfl

/-- Coercion preserves the cell count of every returned column. -/
theorem coerceColumn_length (cells : List Cell)
    (r : Dtype × List (Option TVal) × Bool) (h : coerceColumn cells = .ok r) :
    r.2.1.length = cells.length := by
  rw [coerceColumn_cells_eq cells r h]
  simp

/-- A cell that fails coercion under the committed column type becomes null. -/
theorem coerceColumn_fail_null (cells : List Cell)
    (r : Dtype × List (Option TVal) × Bool) (h : coerceColumn cells = .ok r) (i : Nat)
    (hf : cellFails r.1 (cells.getD i none) = true) :
    r.2.1.getD i none = none := by
  rw [coerceColumn_cells_eq cells r h,
    getD_map_opt _ (coerceCellMap_none _) cells i,
    coerceCellMap_fail _ _ hf]

/-- The column loop can only raise the Int64-cast `TypeError`. -/
theorem coerceCols_error_typeErr (t : Df) :
    ∀ (l : List (Nat × String)) (e : CoerceErr), coerceCols t l = .error e → e = .typeErr := by
  intro l
  induction l with
  | nil => intro e h; simp [coerceCols] at h
  | cons p ps ih =>
    intro e h
    revert h
    simp only [coerceCols]
    cases hc : coerceColumn (colCells t p.1) with
    | error u => intro h; cases h; rfl
    | ok r =>
      cases hrest : coerceCols t ps with
      | error e2 => intro h; cases h; exact ih _ hrest
      | ok rest => intro h; simp at h

/-- Shape of a successful column loop: one coerced column per input column,
in order. -/
theorem coerceCols_ok_get (t : Df) :
    ∀ (l : List (Nat × String)) (cs : List (TCol × Bool)),
      coerceCols t l = .ok cs →
      cs.length = l.length ∧
      ∀ j p, l.get? j = some p →
        ∃ r, coerceColumn (colCells t p.1) = .ok r ∧
          cs.get? j = some ((⟨p.2, r.1, r.2.1⟩ : TCol), r.2.2) := by
  intro l
  induction l with
  | nil =>
    intro cs h
    cases h
    exact ⟨rfl, fun j p hp => by simp at hp⟩
  | cons p0 ps ih =>
    intro cs h
    revert h
    simp only [coerceCols]
    cases hc : coerceColumn (colCells t p0.1) with
    | error u => intro h; simp at h
    | ok r =>
      cases hrest : coerceCols t ps with
      | error e => intro h; simp at h
      | ok rest =>
        intro h
        obtain ⟨hlen, hget⟩ := ih rest hrest
        cases h
        refine ⟨by simp [hlen], ?_⟩
        intro j p hp
        cases j with
        | zero =>
          simp only [List.get?_cons_zero, Option.some.injEq] at hp
          subst hp
          exact ⟨r, hc, by simp⟩
        | succ n =>
          simp only [List.get?_cons_succ] at hp ⊢
          exact hget n p hp

/-- The coercion stage cannot raise the zero-division error on a table with
rows or without columns; any raise is the Int64-cast `TypeError`. -/
theorem inferAndCoerce_error_inv (t : Df) (e : CoerceErr)
    (h : inferAndCoerce t = .error e) (hrows : ¬(t.ncols ≠ 0 ∧ t.nrows = 0)) :
    e = .typeErr := by
  rw [inferAndCoerce, if_neg hrows] at h
  cases hc : coerceCols t t.header.enum with
  | error e2 =>
    rw [hc] at h
    cases h
    exact coerceCols_error_typeErr t t.header.enum e hc
  | ok cs =>
    rw [hc] at h
    simp at h

/-- Shape of a successful coercion result: the typed columns come from the
column loop over the headers, in order. -/
theorem inferAndCoerce_ok_elim (t : Df)
    (res : TDf × List (String × String) × List (String × String) × List String)
    (h : inferAndCoerce t = .ok res) :
    ∃ cs, coerceCols t t.header.enum = .ok cs ∧
      res.1.cols = cs.map Prod.fst ∧ res.1.rowCount = t.nrows := by
  revert h
  rw [inferAndCoerce]
  split
  · intro h; simp at h
  · cases hc : coerceCols t t.header.enum with
    | error e => intro h; simp at h
    | ok cs =>
      intro h
      simp only [Except.ok.injEq] at h
      rw [← h]
      exact ⟨cs, rfl, rfl, rfl⟩

/-- Every column of a successful coercion keeps the raw row count. -/
theorem inferAndCoerce_col_lengths (t : Df)
    (res : TDf × List (String × String) × List (String × String) × List String)
    (h : inferAndCoerce t = .ok res) :
    res.1.cols.length = t.ncols ∧ ∀ c ∈ res.1.cols, c.cells.length = t.nrows := by
  obtain ⟨cs, hcs, hcols, _⟩ := inferAndCoerce_ok_elim t res h
  obtain ⟨hlen, hget⟩ := coerceCols_ok_get t t.header.enum cs hcs
  constructor
  · rw [hcols]
    simp [hlen, Df.ncols]
  · intro c hc
    rw [hcols] at hc
    obtain ⟨pr, hpr, rfl⟩ := List.mem_map.mp hc
    obtain ⟨j, hj⟩ := List.mem_iff_get?.mp hpr
    have hjl : j < t.header.enum.length := by
      obtain ⟨hlt, -⟩ := List.get?_eq_some.mp hj
      rwa [hlen] at hlt
    obtain ⟨p, hp⟩ : ∃ p, t.header.enum.get? j = some p := by
      rw [List.get?_eq_get hjl]
      exact ⟨_, rfl⟩
    obtain ⟨r, hr, hcget⟩ := hget j p hp
    rw [hj] at hcget
    obtain rfl : pr = ((⟨p.2, r.1, r.2.1⟩ : TCol), r.2.2) := by
      simpa using hcget
    have := coerceColumn_length (colCells t p.1) r hr
    simpa [colCells, Df.nrows] using this

/-- The typed column at a valid index of a successful coercion. -/
theorem inferAndCoerce_getD (t : Df)
    (res : TDf × List (String × String) × List (String × String) × List String)
    (h : inferAndCoerce t = .ok res) (j : Nat) (hj : j < t.ncols) :
    ∃ r, coerceColumn (colCells t j) = .ok r ∧
      res.1.cols.getD j dummyCol = ⟨t.header.getD j "", r.1, r.2.1⟩ := by
  obtain ⟨cs, hcs, hcols, _⟩ := inferAndCoerce_ok_elim t res h
  obtain ⟨_, hget⟩ := coerceCols_ok_get t t.header.enum cs hcs
  have hj' : j < t.header.length := hj
  have hp : t.header.enum.get? j = some (j, t.header.getD j "") := by
    rw [List.get?_eq_getElem?, List.getElem?_enum, List.getElem?_eq_getElem hj']
    rw [List.getD_eq_getElem?_getD, List.getElem?_eq_getElem hj']
    rfl
  obtain ⟨r, hr, hcget⟩ := hget j (j, t.header.getD j "") hp
  refine ⟨r, hr, ?_⟩
  rw [hcols, List.getD_eq_getElem?_getD, List.getElem?_map, ← List.get?_eq_getElem?, hcget]
  rfl

/-- A pruned table with a column has a row: every kept column kept a non-null
cell in some kept row. -/
theorem pruneDf_pos (t : Df) (h : 0 < (pruneDf t).1.ncols) :
    0 < (pruneDf t).1.nrows := by
  simp only [pruneDf, Df.ncols, Df.nrows, List.length_map] at h ⊢
  obtain ⟨j, hj⟩ := List.exists_mem_of_length_pos h
  have hp := (List.mem_filter.mp hj).2
  obtain ⟨r, hr, _⟩ := List.any_eq_true.mp hp
  exact List.length_pos.mpr (List.ne_nil_of_mem hr)

/-- A successful `finishLoad` returns the pruning of a bound parse. -/
theorem finishLoad_ok_inv (df : Option Df) (ft : String) (ws : List String)
    (t : Df) (ft' : String) (ws' : List String)
    (h : finishLoad df ft ws = .ok (t, ft', ws')) :
    ∃ t0, df = some t0 ∧ t = (pruneDf t0).1 := by
  cases df with
  | none => simp [finishLoad] at h
  | some t0 =>
    simp only [finishLoad, Except.ok.injEq, Prod.mk.injEq] at h
    exact ⟨t0, rfl, h.1.symm⟩

/-- Every table the loader returns is the pruning of some parse. -/
theorem loadData_ok_pruned (src : Source) (t : Df) (ft : String) (ws : List String)
    (h : loadData src = .ok (t, ft, ws)) : ∃ t0, t = (pruneDf t0).1 := by
  revert h
  simp only [loadData]
  split
  · intro h
    obtain ⟨t0, _, ht⟩ := finishLoad_ok_inv _ _ _ _ _ _ h
    exact ⟨t0, ht⟩
  · split
    · intro h
      obtain ⟨t0, _, ht⟩ := finishLoad_ok_inv _ _ _ _ _ _ h
      exact ⟨t0, ht⟩
    · intro h
      obtain ⟨t0, _, ht⟩ := finishLoad_ok_inv _ _ _ _ _ _ h
      exact ⟨t0, ht⟩

/-- A loaded table with a column has a row. -/
theorem loadData_pos_rows (src : Source) (t : Df) (ft : String) (ws : List String)
    (h : loadData src = .ok (t, ft, ws)) (hc : 0 < t.ncols) : 0 < t.nrows := by
  obtain ⟨t0, rfl⟩ := loadData_ok_pruned src t ft ws h
  exact pruneDf_pos t0 hc

/-- A non-empty typed table always receives an orientation. -/
theorem detectOrient_ok_of (t : TDf) (h : t.cols ≠ []) : ∃ o, detectOrient t = .ok o := by
  have h0 : t.cols.length ≠ 0 := Nat.pos_iff_ne_zero.mp (List.length_pos.mpr h)
  cases h1 : longNameRule t <;> cases h2 : wideShare t <;> cases h3 : longShare t <;>
    simp [detectOrient, h0, h1, h2, h3]

/-- C9 counterexample: a nameless in-memory stream is silently assumed to be
`.csv` and loaded through the standard text path with an empty warning list
and file type `csv`, not `csv_fallback` — refuting the claim that a warning
about the assumed type is recorded for a stream with no extension hint. -/
theorem c9_counterexample :
    extensionOf ⟨none, "a,b\n1,2\n3,4"⟩ = ".csv" ∧
      loadData ⟨none, "a,b\n1,2\n3,4"⟩ =
        .ok (⟨["a", "b"], [[some "1", some "2"], [some "3", some "4"]]⟩, "csv", []) := by
  decide

/-- A role obtained from a non-empty column is never Other, and a boolean
column lands in the numeric branch. -/
theorem roleOf_cases (c : TCol) (h0 : 0 < c.cells.length) (r : Role)
    (hr : roleOf c = .ok r) :
    r ≠ .other ∧ (c.dtype = .boolean → r = .identifier ∨ r = .numericMetric) := by
  have hne : c.cells.length ≠ 0 := Nat.pos_iff_ne_zero.mp h0
  cases hdt : c.dtype <;> cases hil : identLike c <;>
    simp [roleOf, hdt, hne, hil, isNumericDtype] at hr <;>
      subst hr <;> simp [hdt]

/-- C3 (amended): for every table the loading stage returns that has at least
one column (such a table also has at least one row), the only exception a
downstream stage can raise is the `TypeError` of the Int64 cast on an
out-of-range integral column — the zero-division cannot fire, and whenever
coercion returns, role classification and orientation detection succeed.  A
table pruned to zero columns instead makes orientation detection raise a
ZeroDivisionError (see the counterexample), and the out-of-int64-range source
`exBigSrc` loads and then raises the `TypeError` in coercion. -/
theorem c3_downstream_total :
    (∀ (src : Source) (t : Df) (ft : String) (ws : List String),
      loadData src = .ok (t, ft, ws) → 0 < t.ncols →
      (∀ e, inferAndCoerce t = .error e → e = .typeErr) ∧
      (∀ res, inferAndCoerce t = .ok res →
        (∃ rs, inferColumnRoles res.1 = .ok rs) ∧
        (∃ o, detectOrient res.1 = .ok o))) ∧
    (loadData exBigSrc = .ok (exBigDf, "csv", []) ∧
      inferAndCoerce exBigDf = .error .typeErr) := by
  refine ⟨?_, by decide, by decide⟩
  intro src t ft ws h hc
  have hr : 0 < t.nrows := loadData_pos_rows src t ft ws h hc
  constructor
  · intro e he
    exact inferAndCoerce_error_inv t e he (fun hx => absurd hx.2 (Nat.pos_iff_ne_zero.mp hr))
  · intro res hres
    obtain ⟨hlen, hcells⟩ := inferAndCoerce_col_lengths t res hres
    constructor
    · obtain ⟨rs, hrs, _⟩ := rolesListOk res.1.cols (fun c hcmem => (hcells c hcmem) ▸ hr)
      exact ⟨rs, hrs⟩
    · apply detectOrient_ok_of
      intro hnil
      rw [hnil] at hlen
      simp at hlen
      omega

/-- Witness for the universally quantified part of the C3 amended theorem at a
concrete two-column source. -/
theorem c3_downstream_total_witness :
    (∀ e, inferAndCoerce exDf = .error e → e = .typeErr) ∧
    (∀ res, inferAndCoerce exDf = .ok res →
      (∃ rs, inferColumnRoles res.1 = .ok rs) ∧
      (∃ o, detectOrient res.1 = .ok o)) :=
  c3_downstream_total.1 exSrc exDf "csv" [] (by decide) (by decide)

/-- C6 counterexample: the source `exBigSrc` loads into a two-column table
whose first column is fully integral but outside the int64 range; the
coercion stage then raises `TypeError` in the Int64 cast instead of returning
a typed table with nulls — refuting the claim that a cell failing coercion
becomes null rather than raising. -/
theorem c6_counterexample :
    loadData exBigSrc = .ok (exBigDf, "csv", []) ∧
      numericOk (colCells exBigDf 0) = true ∧ allIntegral (colCells exBigDf 0) = true ∧
      inferAndCoerce exBigDf = .error .typeErr := by
  decide

/-- C6 (amended): whenever the coercion stage returns a typed table for a
loader table, it preserves the row count (after the loader's
empty-row/empty-column pruning; counts are naturals, so never negative),
keeps every typed column at exactly that row count, and turns every cell that
fails parsing under the committed column type into a null; the only way the
stage fails to return on a loader table is the Int64-cast `TypeError` on an
out-of-range integral column. -/
theorem c6_row_count_invariant (src : Source) (t : Df) (ft : String) (ws : List String)
    (h : loadData src = .ok (t, ft, ws)) :
    (∀ e, inferAndCoerce t = .error e → e = .typeErr) ∧
    ∀ res, inferAndCoerce t = .ok res →
      res.1.rowCount = t.nrows ∧
      res.1.cols.length = t.ncols ∧
      (∀ c ∈ res.1.cols, c.cells.length = t.nrows) ∧
      (∀ j, j < t.ncols → ∀ i,
        cellFails (res.1.cols.getD j dummyCol).dtype ((colCells t j).getD i none) = true →
        ((res.1.cols.getD j dummyCol).cells).getD i none = none) := by
  constructor
  · intro e he
    refine inferAndCoerce_error_inv t e he ?_
    rintro ⟨hcne, hr0⟩
    have hc : 0 < t.ncols := Nat.pos_of_ne_zero hcne
    have := loadData_pos_rows src t ft ws h hc
    omega
  · intro res hres
    obtain ⟨_, _, _, hrc⟩ := inferAndCoerce_ok_elim t res hres
    obtain ⟨hlen, hcells⟩ := inferAndCoerce_col_lengths t res hres
    refine ⟨hrc, hlen, hcells, ?_⟩
    intro j hj i hfail
    obtain ⟨r, hr, hgetD⟩ := inferAndCoerce_getD t res hres j hj
    rw [hgetD] at hfail ⊢
    exact coerceColumn_fail_null _ r hr i hfail

/-- Witness for the C6 theorem at a concrete two-column source. -/
theorem c6_row_count_invariant_witness :
    (∀ e, inferAndCoerce exDf = .error e → e = .typeErr) ∧
    ∀ res, inferAndCoerce exDf = .ok res →
      res.1.rowCount = exDf.nrows ∧
      res.1.cols.length = exDf.ncols ∧
      (∀ c ∈ res.1.cols, c.cells.length = exDf.nrows) ∧
      (∀ j, j < exDf.ncols → ∀ i,
        cellFails (res.1.cols.getD j dummyCol).dtype ((colCells exDf j).getD i none) = true →
        ((res.1.cols.getD j dummyCol).cells).getD i none = none) :=
  c6_row_count_invariant exSrc exDf "csv" [] (by decide)

/-- The fallback-CSV delimiter loop only appends warnings. -/
theorem fbCsvDelims_ws_mono (content : String) (e : Encoding) :
    ∀ (ds : List Char) (df0 : Option Df) (ws : List String),
      ∃ extra, (fbCsvDelims content e ds df0 ws).2 = ws ++ extra := by
  intro ds
  induction ds with
  | nil => intro df0 ws; exact ⟨[], by simp [fbCsvDelims]⟩
  | cons d rest ih =>
    intro df0 ws
    cases hcd : readCsv content d with
    | error er =>
      obtain ⟨extra, hex⟩ := ih df0 (ws ++ [fbCsvFailMsg d e])
      exact ⟨[fbCsvFailMsg d e] ++ extra, by simp [fbCsvDelims, hcd, hex]⟩
    | ok t =>
      by_cases hemp : (t.rows.isEmpty || t.ncols == 1) = true
      · obtain ⟨extra, hex⟩ := ih (some t) ws
        exact ⟨extra, by simp [fbCsvDelims, hcd, hemp, hex]⟩
      · exact ⟨[], by simp [fbCsvDelims, hcd, hemp]⟩

/-- The fallback-CSV encoding loop only appends warnings. -/
theorem fbCsvEnc_ws_mono (content : String) :
    ∀ (es : List Encoding) (df0 : Option Df) (ws : List String),
      ∃ extra, (fbCsvEnc content es df0 ws).2 = ws ++ extra := by
  intro es
  induction es with
  | nil => intro df0 ws; exact ⟨[], by simp [fbCsvEnc]⟩
  | cons e rest ih =>
    intro df0 ws
    obtain ⟨extra, hex⟩ := fbCsvDelims_ws_mono content e baseDelims df0 ws
    simp only [fbCsvEnc]
    cases hdf : (fbCsvDelims content e baseDelims df0 ws).1 with
    | some t => exact ⟨extra, by simp [hdf, hex]⟩
    | none =>
      obtain ⟨extra2, hex2⟩ := ih none (fbCsvDelims content e baseDelims df0 ws).2
      refine ⟨extra ++ extra2, ?_⟩
      rw [hex]
      rw [hex] at hex2
      show (fbCsvEnc content rest none (ws ++ extra)).2 = ws ++ (extra ++ extra2)
      rw [hex2, List.append_assoc]

/-- A successful `finishLoad` keeps the file type and only appends warnings. -/
theorem finishLoad_ok_parts (df : Option Df) (ft : String) (ws : List String)
    (t : Df) (ft' : String) (ws' : List String)
    (h : finishLoad df ft ws = .ok (t, ft', ws')) :
    ft' = ft ∧ ∃ extra, ws' = ws ++ extra := by
  cases df with
  | none => simp [finishLoad] at h
  | some t0 =>
    simp only [finishLoad, Except.ok.injEq, Prod.mk.injEq] at h
    exact ⟨h.2.1.symm, ⟨(pruneDf t0).2, h.2.2.symm⟩⟩

/-- C9 (amended): a source whose name carries an unrecognised or absent
extension is loaded through the fallback CSV branch, with file type
`csv_fallback` and the assumed-type warning recorded first; a stream with no
name at all is instead silently assumed to be `.csv` and takes the standard
text path with no such warning (see the counterexample). -/
theorem c9_unknown_extension_warns (nm content : String) (t : Df) (ft : String)
    (ws : List String)
    (h1 : extOf nm ∉ textExts) (h2 : extOf nm ∉ excelExts)
    (h : loadData ⟨some nm, content⟩ = .ok (t, ft, ws)) :
    ft = "csv_fallback" ∧ unsupportedMsg (extOf nm) ∈ ws := by
  have hext : extensionOf ⟨some nm, content⟩ = extOf nm := rfl
  rw [loadData, hext, if_neg h1, if_neg h2] at h
  obtain ⟨hft, extra, hws⟩ := finishLoad_ok_parts _ _ _ _ _ _ h
  obtain ⟨extra2, hex2⟩ :=
    fbCsvEnc_ws_mono content encodings none [unsupportedMsg (extOf nm)]
  refine ⟨hft, ?_⟩
  rw [hws, hex2]
  simp

/-- Witness for the C9 amended theorem at a concrete `.xyz` source. -/
theorem c9_unknown_extension_warns_witness :
    "csv_fallback" = "csv_fallback" ∧
      unsupportedMsg (extOf "data.xyz") ∈ [unsupportedMsg ".xyz"] :=
  c9_unknown_extension_warns "data.xyz" "a,b\n1,2\n3,4"
    ⟨["a", "b"], [[some "1", some "2"], [some "3", some "4"]]⟩
    "csv_fallback" [unsupportedMsg ".xyz"] (by decide) (by decide) (by decide)

/-- Stable descending insertion permutes. -/
theorem insertDesc_perm (p : Char × Nat) (l : List (Char × Nat)) :
    (insertDesc p l).Perm (p :: l) := by
  induction l with
  | nil => exact List.Perm.refl _
  | cons q t ih =>
    by_cases hpq : p.2 < q.2
    · simp only [insertDesc, if_pos hpq]
      exact (List.Perm.cons q ih).trans (List.Perm.swap p q t)
    · simp only [insertDesc, if_neg hpq]
      exact List.Perm.refl _

/-- The stable descending sort permutes. -/
theorem sortDesc_perm (l : List (Char × Nat)) : (sortDesc l).Perm l := by
  induction l with
  | nil => exact List.Perm.refl _
  | cons p t ih => exact (insertDesc_perm p (sortDesc t)).trans (List.Perm.cons p ih)

/-- Stable descending insertion preserves count-descending order. -/
theorem insertDesc_sorted (p : Char × Nat) (l : List (Char × Nat))
    (h : l.Pairwise (fun a b => b.2 ≤ a.2)) :
    (insertDesc p l).Pairwise (fun a b => b.2 ≤ a.2) := by
  induction l with
  | nil => simp [insertDesc]
  | cons q t ih =>
    obtain ⟨hq, ht⟩ := List.pairwise_cons.mp h
    by_cases hpq : p.2 < q.2
    · simp only [insertDesc, if_pos hpq]
      refine List.pairwise_cons.mpr ⟨?_, ih ht⟩
      intro x hx
      rcases List.mem_cons.mp ((insertDesc_perm p t).mem_iff.mp hx) with rfl | hx'
      · exact Nat.le_of_lt hpq
      · exact hq x hx'
    · simp only [insertDesc, if_neg hpq]
      refine List.pairwise_cons.mpr ⟨?_, h⟩
      intro x hx
      rcases List.mem_cons.mp hx with rfl | hx'
      · exact Nat.le_of_not_lt hpq
      · exact le_trans (hq x hx') (Nat.le_of_not_lt hpq)

/-- The stable descending sort is count-descending. -/
theorem sortDesc_sorted (l : List (Char × Nat)) :
    (sortDesc l).Pairwise (fun a b => b.2 ≤ a.2) := by
  induction l with
  | nil => simp [sortDesc]
  | cons p t ih => exact insertDesc_sorted p (sortDesc t) ih

/-- Every counted pair records the count of its delimiter. -/
theorem posCounts_snd (content : String) :
    ∀ p ∈ posCounts content, p.2 = countChar content p.1 := by
  intro p hp
  obtain ⟨d, _, rfl⟩ := List.mem_map.mp hp
  rfl

/-- The delimiters of the counted pairs are the positively counted candidate
delimiters. -/
theorem posCounts_map_fst (content : String) :
    (posCounts content).map Prod.fst =
      baseDelims.filter (fun d => decide (0 < countChar content d)) := by
  simp [posCounts, List.map_map, Function.comp_def]

/-- Membership test against the counted pairs agrees with the positive-count
test on candidate delimiters. -/
theorem posCounts_any_eq (content : String) (d : Char) (hd : d ∈ baseDelims) :
    ((posCounts content).any (fun q => q.1 == d)) = decide (0 < countChar content d) := by
  rw [Bool.eq_iff_iff]
  simp only [List.any_eq_true, beq_iff_eq, decide_eq_true_eq]
  constructor
  · rintro ⟨q, hq, rfl⟩
    have := (List.mem_filter.mp (posCounts_map_fst content ▸
      List.mem_map_of_mem Prod.fst hq)).2
    exact of_decide_eq_true this
  · intro hpos
    exact ⟨(d, countChar content d),
      List.mem_map_of_mem _ (List.mem_filter.mpr ⟨hd, decide_eq_true hpos⟩), rfl⟩

/-- The prioritised delimiter list is a permutation of the candidate list. -/
theorem orderedDelims_perm (content : String) :
    (orderedDelims content).Perm baseDelims := by
  unfold orderedDelims
  by_cases hpc : (posCounts content).isEmpty
  · simp [hpc]
  · simp only [hpc, Bool.false_eq_true, if_false]
    have h1 : ((sortDesc (posCounts content)).map Prod.fst).Perm
        (baseDelims.filter (fun d => decide (0 < countChar content d))) := by
      rw [← posCounts_map_fst]
      exact (sortDesc_perm (posCounts content)).map Prod.fst
    have h2 : (baseDelims.filter (fun d => !((posCounts content).any (fun q => q.1 == d)))) =
        baseDelims.filter (fun d => !(decide (0 < countChar content d))) :=
      List.filter_congr (fun d hd => by rw [posCounts_any_eq content d hd])
    rw [h2]
    exact (h1.append (List.Perm.refl _)).trans
      (List.filter_append_perm (fun d => decide (0 < countChar content d)) baseDelims)

/-- The prioritised delimiter list is ordered by descending occurrence count. -/
theorem orderedDelims_sorted (content : String) :
    (orderedDelims content).Pairwise
      (fun a b => countChar content b ≤ countChar content a) := by
  unfold orderedDelims
  by_cases hpc : (posCounts content).isEmpty
  · simp only [hpc, if_true]
    have hz : ∀ d ∈ baseDelims, countChar content d = 0 := by
      intro d hd
      by_contra hnz
      have hpos : 0 < countChar content d := Nat.pos_of_ne_zero hnz
      have : (d, countChar content d) ∈ posCounts content :=
        List.mem_map_of_mem _ (List.mem_filter.mpr ⟨hd, decide_eq_true hpos⟩)
      rw [List.isEmpty_iff] at hpc
      simp [hpc] at this
    exact List.pairwise_of_forall_mem_list
      (fun a ha b hb => by rw [hz b hb]; exact Nat.zero_le _)
  · simp only [hpc, Bool.false_eq_true, if_false]
    rw [List.pairwise_append]
    refine ⟨?_, ?_, ?_⟩
    · rw [List.pairwise_map]
      have hs := sortDesc_sorted (posCounts content)
      refine hs.imp_of_mem ?_
      intro a b ha hb hab
      have ha' := posCounts_snd content a ((sortDesc_perm _).mem_iff.mp ha)
      have hb' := posCounts_snd content b ((sortDesc_perm _).mem_iff.mp hb)
      rw [← ha', ← hb']
      exact hab
    · refine List.pairwise_of_forall_mem_list ?_
      intro a ha b hb
      have hbz : countChar content b = 0 := by
        have hmem := List.mem_filter.mp hb
        have := hmem.2
        rw [posCounts_any_eq content b hmem.1] at this
        simpa using this
      rw [hbz]
      exact Nat.zero_le _
    · intro a _ b hb
      have hmem := List.mem_filter.mp hb
      have hbz : countChar content b = 0 := by
        have := hmem.2
        rw [posCounts_any_eq content b hmem.1] at this
        simpa using this
      rw [hbz]
      exact Nat.zero_le _

/-- The delimiter loop accepts the first surviving delimiter: every rejected
or failing attempt before it only re-binds `df` and accumulates warnings. -/
theorem delimLoop_accept (content : String) (e : Encoding) :
    ∀ (pre : List Char) (d : Char) (post : List Char) (df0 : Option Df)
      (ws : List String),
      (∀ x ∈ pre, survives content x = false) → survives content d = true →
      ∃ t ws', readCsv content d = .ok t ∧
        delimLoop content e (pre ++ d :: post) df0 ws = ⟨some t, ws', some d⟩ := by
  intro pre
  induction pre with
  | nil =>
    intro d post df0 ws _ hd
    revert hd
    unfold survives
    cases hcd : readCsv content d with
    | error er => simp
    | ok t =>
      intro hd
      simp only [Bool.and_eq_true, Bool.not_eq_true'] at hd
      refine ⟨t, ws, rfl, ?_⟩
      simp only [List.nil_append, delimLoop, hcd, hd.1, Bool.false_eq_true, if_false]
      rw [if_neg (by simp [hd.2])]
  | cons x pre' ih =>
    intro d post df0 ws hpre hd
    have hprer : ∀ y ∈ pre', survives content y = false := fun y hy => hpre y (by simp [hy])
    have hx := hpre x (by simp)
    cases hcx : readCsv content x with
    | error er =>
      obtain ⟨t2, ws2, hcd2, hres2⟩ := ih d post df0 (ws ++ [readFailMsg x e]) hprer hd
      exact ⟨t2, ws2, hcd2, by simpa [delimLoop, hcx] using hres2⟩
    | ok tx =>
      unfold survives at hx
      simp only [hcx] at hx
      by_cases hemp : (tx.rows.isEmpty || tx.ncols == 1) = true
      · obtain ⟨t2, ws2, hcd2, hres2⟩ :=
          ih d post (some tx)
            (if tx.ncols == 1 then ws ++ [singleColMsg x e] else ws) hprer hd
        exact ⟨t2, ws2, hcd2, by simpa [delimLoop, hcx, hemp] using hres2⟩
      · have hemp' : (tx.rows.isEmpty || tx.ncols == 1) = false := by simpa using hemp
        have hstd : stdRejects tx = true := by
          rw [hemp'] at hx
          simpa using hx
        obtain ⟨t2, ws2, hcd2, hres2⟩ :=
          ih d post (some tx) (ws ++ [inconsistentMsg x e]) hprer hd
        refine ⟨t2, ws2, hcd2, ?_⟩
        simp only [List.cons_append, delimLoop, hcx, hemp', Bool.false_eq_true, if_false]
        rw [if_pos hstd]
        exact hres2

/-- The text path accepts the first surviving delimiter in priority order and
returns its parse. -/
theorem textPath_accept (content : String) (d : Char) (pre post : List Char)
    (hsplit : usedDelims content = pre ++ d :: post)
    (hpre : ∀ x ∈ pre, survives content x = false)
    (hd : survives content d = true) :
    ∃ t, readCsv content d = .ok t ∧
      (textPath content).df = some t ∧ (textPath content).acc = some d := by
  obtain ⟨t, ws', hcd, hres⟩ :=
    delimLoop_accept content .utf8 pre d post none [] hpre hd
  rw [← hsplit] at hres
  have henc : encLoop content (usedDelims content) encodings none [] =
      ⟨some t, ws', some d⟩ := by
    show (match (delimLoop content .utf8 (usedDelims content) none []).df with
      | some t2 => (⟨some t2, (delimLoop content .utf8 (usedDelims content) none []).ws,
          (delimLoop content .utf8 (usedDelims content) none []).acc⟩ : TextOut)
      | none => encLoop content (usedDelims content) [.latin1, .iso88591] none
          (delimLoop content .utf8 (usedDelims content) none []).ws) = _
    rw [hres]
  have hnc : (t.ncols == 1) = false := by
    revert hd
    unfold survives
    rw [hcd]
    intro hd
    simp only [Bool.and_eq_true, Bool.not_eq_true', Bool.or_eq_false_iff] at hd
    exact hd.1.2
  refine ⟨t, hcd, ?_, ?_⟩ <;>
    · simp only [textPath, henc]
      rw [if_neg (by simp [hnc])]

/-- C4 (amended): the text loader iterates the three encodings in their fixed
priority order against the candidate delimiters reordered most-frequent-first
by raw occurrence count; a parse is rejected when it is empty, has exactly one
column, or fails the standard-deviation-above-1 row-width check, and the first
(encoding, delimiter) pair surviving all checks is accepted.  On
`"a,b,c\n1,2,3\n4,5,6"` the comma is selected and a 3-column, 2-row table is
returned. -/
theorem c4_resolver_priority :
    encodings = [.utf8, .latin1, .iso88591] ∧
    (∀ content : String, (orderedDelims content).Perm baseDelims ∧
      (orderedDelims content).Pairwise
        (fun a b => countChar content b ≤ countChar content a)) ∧
    (∀ (content : String) (d : Char) (pre post : List Char),
      usedDelims content = pre ++ d :: post →
      (∀ x ∈ pre, survives content x = false) → survives content d = true →
      ∃ t, readCsv content d = .ok t ∧
        (textPath content).df = some t ∧ (textPath content).acc = some d) ∧
    ((textPath "a,b,c\n1,2,3\n4,5,6").acc = some ',' ∧
      loadData ⟨some "t.csv", "a,b,c\n1,2,3\n4,5,6"⟩ =
        .ok (⟨["a", "b", "c"],
          [[some "1", some "2", some "3"], [some "4", some "5", some "6"]]⟩,
          "csv", [])) :=
  ⟨rfl, fun content => ⟨orderedDelims_perm content, orderedDelims_sorted content⟩,
    fun content d pre post h1 h2 h3 => textPath_accept content d pre post h1 h2 h3,
    by decide, by decide⟩

/-- Witness for the universally quantified parts of the C4 theorem: the comma
is the first surviving delimiter on the example content and its parse is
accepted. -/
theorem c4_resolver_priority_witness :
    ∃ t, readCsv "a,b,c\n1,2,3\n4,5,6" ',' = .ok t ∧
      (textPath "a,b,c\n1,2,3\n4,5,6").df = some t ∧
      (textPath "a,b,c\n1,2,3\n4,5,6").acc = some ',' :=
  c4_resolver_priority.2.2.1 "a,b,c\n1,2,3\n4,5,6" ',' [] ['\t', ';', '|']
    (by decide) (by decide) (by decide)

/-- The header-scan accumulator only grows. -/
theorem bestHeader_le_aux (hdr : List Char) :
    ∀ (ds : List Char) (acc : Nat × Option Char),
      acc.1 ≤ (ds.foldl
        (fun acc d =>
          let c := (chSplit d hdr).length
          if acc.1 < c then (c, some d) else acc) acc).1 := by
  intro ds
  induction ds with
  | nil => intro acc; exact le_refl _
  | cons d rest ih =>
    intro acc
    rw [List.foldl_cons]
    refine le_trans ?_ (ih _)
    dsimp only
    split
    · exact Nat.le_of_lt (by assumption)
    · exact le_refl _

/-- The header scan dominates the field count of every candidate delimiter. -/
theorem bestHeader_mem_aux (hdr : List Char) :
    ∀ (ds : List Char) (acc : Nat × Option Char) (d : Char), d ∈ ds →
      (chSplit d hdr).length ≤ (ds.foldl
        (fun acc d =>
          let c := (chSplit d hdr).length
          if acc.1 < c then (c, some d) else acc) acc).1 := by
  intro ds
  induction ds with
  | nil => intro acc d hd; simp at hd
  | cons d0 rest ih =>
    intro acc d hd
    rw [List.foldl_cons]
    rcases List.mem_cons.mp hd with rfl | hmem
    · refine le_trans ?_ (bestHeader_le_aux hdr rest _)
      dsimp only
      split
      · exact le_refl _
      · exact Nat.le_of_not_lt (by assumption)
    · exact ih _ d hmem

/-- The header scan keeps its field count attached to its chosen delimiter. -/
theorem bestHeader_inv_aux (hdr : List Char) :
    ∀ (ds : List Char) (acc : Nat × Option Char),
      (∀ b, acc.2 = some b → (chSplit b hdr).length = acc.1) →
      ∀ b, (ds.foldl
          (fun acc d =>
            let c := (chSplit d hdr).length
            if acc.1 < c then (c, some d) else acc) acc).2 = some b →
        (chSplit b hdr).length = (ds.foldl
          (fun acc d =>
            let c := (chSplit d hdr).length
            if acc.1 < c then (c, some d) else acc) acc).1 := by
  intro ds
  induction ds with
  | nil => intro acc hinv b hb; exact hinv b hb
  | cons d rest ih =>
    intro acc hinv
    rw [List.foldl_cons]
    apply ih
    dsimp only
    by_cases hlt : acc.1 < (chSplit d hdr).length
    · intro b hb
      rw [if_pos hlt] at hb ⊢
      cases hb
      rfl
    · intro b hb
      rw [if_neg hlt] at hb ⊢
      exact hinv b hb

/-- The chosen fallback delimiter maximises the header field count. -/
theorem bestHeader_max (delims : List Char) (hdr : List Char) (d : Char)
    (hd : d ∈ delims) : (chSplit d hdr).length ≤ (bestHeader delims hdr).1 :=
  bestHeader_mem_aux hdr delims (0, none) d hd

/-- The chosen fallback delimiter achieves the recorded field count. -/
theorem bestHeader_achieves (delims : List Char) (hdr : List Char) (b : Char)
    (hb : (bestHeader delims hdr).2 = some b) :
    (chSplit b hdr).length = (bestHeader delims hdr).1 :=
  bestHeader_inv_aux hdr delims (0, none) (fun _ h => by simp at h) b hb

/-- A line that splits to the expected width under the best delimiter is used
as split. -/
theorem parseLine_exact (delims : List Char) (b : Char) (mc : Nat) (line : List Char)
    (h : (chSplit b line).length = mc) :
    parseLine delims b mc line = chSplit b line := by
  simp [parseLine, h]

/-- A mismatching line on which some other candidate delimiter yields the
expected width is recovered at exactly that width. -/
theorem parseLine_retry (delims : List Char) (b : Char) (mc : Nat) (line : List Char)
    (h : (chSplit b line).length ≠ mc)
    (h2 : ∃ d ∈ delims, d ≠ b ∧ (chSplit d line).length = mc) :
    (parseLine delims b mc line).length = mc := by
  simp only [parseLine, if_neg h]
  cases hf : delims.find? (fun d => d != b && (chSplit d line).length == mc) with
  | none =>
    exfalso
    obtain ⟨d, hd, hne, hlen⟩ := h2
    exact absurd (by simp [hne, hlen] : (d != b && (chSplit d line).length == mc) = true)
      (by simpa using List.find?_eq_none.mp hf d hd)
  | some d2 =>
    have := List.find?_some hf
    simp only [Bool.and_eq_true, beq_iff_eq] at this
    exact this.2

/-- A mismatching line on which no candidate delimiter yields the expected
width is kept as a single unsplit field. -/
theorem parseLine_keep (delims : List Char) (b : Char) (mc : Nat) (line : List Char)
    (h : (chSplit b line).length ≠ mc)
    (h2 : ∀ d ∈ delims, d ≠ b → (chSplit d line).length ≠ mc) :
    parseLine delims b mc line = [line] := by
  simp only [parseLine, if_neg h]
  cases hf : delims.find? (fun d => d != b && (chSplit d line).length == mc) with
  | none => rfl
  | some d2 =>
    exfalso
    have hp := List.find?_some hf
    have hmem := List.mem_of_find?_eq_some hf
    simp only [Bool.and_eq_true, beq_iff_eq, bne_iff_ne, ne_eq] at hp
    exact h2 d2 hmem hp.1 hp.2

/-- The text path skips the fallback entirely when the loop bound a parse
that is not a single-column table with more than one row: the loop result is
returned as-is. -/
theorem textPath_no_trigger (content : String) (t : Df)
    (hr : (encLoop content (usedDelims content) encodings none []).df = some t)
    (htr : (t.ncols == 1 && decide (1 < t.nrows)) = false) :
    textPath content = encLoop content (usedDelims content) encodings none [] := by
  simp only [textPath, hr]
  rw [if_neg (by simp [htr])]

/-- When the fallback trigger fires on truthy content and the fallback parser
produces a table, the text path returns that table and appends the notice and
success warnings. -/
theorem textPath_trigger_some (content : String) (t2 : Df) (hc : content ≠ "")
    (htrig : fallbackTrigger content = true)
    (hf : fallbackParse content (usedDelims content) = some t2) :
    (textPath content).df = some t2 ∧
      (textPath content).ws =
        (encLoop content (usedDelims content) encodings none []).ws ++
          [fallbackNoticeMsg] ++ [fallbackDoneMsg] := by
  unfold fallbackTrigger at htrig
  constructor <;>
    · simp only [textPath]
      rw [if_pos htrig, if_pos hc, hf]

/-- When the fallback trigger fires but the fallback parser produces nothing,
the text path keeps the loop's `df` and appends only the notice warning. -/
theorem textPath_trigger_none (content : String) (hc : content ≠ "")
    (htrig : fallbackTrigger content = true)
    (hf : fallbackParse content (usedDelims content) = none) :
    (textPath content).df = (encLoop content (usedDelims content) encodings none []).df ∧
      (textPath content).ws =
        (encLoop content (usedDelims content) encodings none []).ws ++
          [fallbackNoticeMsg] := by
  unfold fallbackTrigger at htrig
  constructor <;>
    · simp only [textPath]
      rw [if_pos htrig, if_pos hc, hf]

/-- C5 counterexample: on the source `"x\ny"` no (encoding, delimiter) pair
survives the consistency checks, yet the fallback is never applied: the
trigger condition is `df is None or df is single-column with more than one
row`, the bound parse here has a single row, and the loader returns it without
the fallback notice — refuting the claim that fallback parsing runs whenever
no pair survives. -/
theorem c5_counterexample :
    (∀ d ∈ usedDelims "x\ny", survives "x\ny" d = false) ∧
      fallbackTrigger "x\ny" = false ∧
      loadData ⟨some "f.csv", "x\ny"⟩ =
        .ok (⟨["x"], [[some "y"]]⟩, "csv",
          [singleColMsg ',' .utf8, singleColMsg '\t' .utf8, singleColMsg ';' .utf8,
            singleColMsg '|' .utf8]) ∧
      fallbackNoticeMsg ∉
        [singleColMsg ',' .utf8, singleColMsg '\t' .utf8, singleColMsg ';' .utf8,
          singleColMsg '|' .utf8] := by
  decide

/-- C5 (amended): fallback mixed-delimiter parsing runs exactly when the main
loop left `df` unbound or bound to a single-column table with more than one
row (not merely whenever no pair survives: a rejected multi-column or
single-row parse is returned as-is).  When it runs, it splits the header line
with every candidate delimiter, keeps the delimiter yielding the most fields
as the expected column count, parses every data line first with that
delimiter, retries the other candidates on any line that does not yield the
expected field count, and keeps a line as a single unsplit field if none
match.  On a file with comma header `a,b,c`, a comma data row, and the
semicolon row `1;2;3` (comma more frequent overall), the trigger fires and
the loader recovers all three fields of the semicolon row. -/
theorem c5_fallback_mixed_delimiters :
    (∀ (content : String) (t : Df),
      (encLoop content (usedDelims content) encodings none []).df = some t →
      (t.ncols == 1 && decide (1 < t.nrows)) = false →
      textPath content = encLoop content (usedDelims content) encodings none []) ∧
    (∀ (content : String) (t2 : Df), content ≠ "" → fallbackTrigger content = true →
      fallbackParse content (usedDelims content) = some t2 →
      (textPath content).df = some t2 ∧
        (textPath content).ws =
          (encLoop content (usedDelims content) encodings none []).ws ++
            [fallbackNoticeMsg] ++ [fallbackDoneMsg]) ∧
    (∀ (delims hdr : List Char) (d : Char), d ∈ delims →
      (chSplit d hdr).length ≤ (bestHeader delims hdr).1) ∧
    (∀ (delims hdr : List Char) (b : Char), (bestHeader delims hdr).2 = some b →
      (chSplit b hdr).length = (bestHeader delims hdr).1) ∧
    (∀ (delims : List Char) (b : Char) (mc : Nat) (line : List Char),
      ((chSplit b line).length = mc → parseLine delims b mc line = chSplit b line) ∧
      ((chSplit b line).length ≠ mc →
        (∃ d ∈ delims, d ≠ b ∧ (chSplit d line).length = mc) →
        (parseLine delims b mc line).length = mc) ∧
      ((chSplit b line).length ≠ mc →
        (∀ d ∈ delims, d ≠ b → (chSplit d line).length ≠ mc) →
        parseLine delims b mc line = [line])) ∧
    (fallbackTrigger exMixed = true ∧ countChar exMixed ';' < countChar exMixed ',' ∧
      ∃ ws, loadData ⟨some "m.csv", exMixed⟩ =
          .ok (⟨["a", "b", "c"],
            [[some "4", some "5", some "6"], [some "1", some "2", some "3"]]⟩,
            "csv", ws) ∧
        fallbackNoticeMsg ∈ ws ∧ fallbackDoneMsg ∈ ws) :=
  ⟨textPath_no_trigger, textPath_trigger_some,
    bestHeader_max, bestHeader_achieves,
    fun delims b mc line =>
      ⟨parseLine_exact delims b mc line,
        parseLine_retry delims b mc line,
        parseLine_keep delims b mc line⟩,
    by decide, by decide,
    ⟨[inconsistentMsg ',' .utf8, readFailMsg ';' .utf8, singleColMsg '\t' .utf8,
        singleColMsg '|' .utf8, fallbackNoticeMsg, fallbackDoneMsg],
      by decide, by decide, by decide⟩⟩

/-- Witness for the universally quantified parts of the C5 theorem: on the
mixed-delimiter file the trigger fires, the fallback parse is adopted with the
notice and success warnings, and the semicolon row is recovered at width 3 by
the per-line retry. -/
theorem c5_fallback_mixed_delimiters_witness :
    ((textPath exMixed).df =
        some ⟨["a", "b", "c"],
          [[some "4", some "5", some "6"], [some "1", some "2", some "3"]]⟩ ∧
      (textPath exMixed).ws =
        (encLoop exMixed (usedDelims exMixed) encodings none []).ws ++
          [fallbackNoticeMsg] ++ [fallbackDoneMsg]) ∧
    (parseLine baseDelims ',' 3 ("1;2;3".data)).length = 3 :=
  ⟨c5_fallback_mixed_delimiters.2.1 exMixed
      ⟨["a", "b", "c"], [[some "4", some "5", some "6"], [some "1", some "2", some "3"]]⟩
      (by decide) (by decide) (by decide),
    (c5_fallback_mixed_delimiters.2.2.2.2.1 baseDelims ',' 3 ("1;2;3".data)).2.1
      (by decide) ⟨';', by decide, by decide, by decide⟩⟩

/-- C10: every dtype the coercion stage can emit is covered by the
classifier's datetime, numeric, or categorical/text branch, so the role Other
is unreachable for tables the type-inference engine produces; in particular a
boolean column is handled by the numeric branch (pandas counts the nullable
boolean dtype as numeric) and ends as Identifier or Numeric metric. -/
theorem c10_other_unreachable (t : Df)
    (res : TDf × List (String × String) × List (String × String) × List String)
    (_h : inferAndCoerce t = .ok res) :
    ∀ c ∈ res.1.cols, 0 < c.cells.length →
      ∃ r, roleOf c = .ok r ∧ r ≠ .other ∧
        (c.dtype = .boolean → r = .identifier ∨ r = .numericMetric) := by
  intro c _ hpos
  obtain ⟨r, hr⟩ := roleOf_ok_of_pos c hpos
  obtain ⟨hne, hbool⟩ := roleOf_cases c hpos r hr
  exact ⟨r, hr, hne, hbool⟩

/-- Witness for the C10 theorem at a concrete boolean column produced by the
coercion stage. -/
theorem c10_other_unreachable_witness :
    ∃ r, roleOf exBoolCol = .ok r ∧ r ≠ .other ∧
      (exBoolCol.dtype = .boolean → r = .identifier ∨ r = .numericMetric) :=
  c10_other_unreachable exBoolDf exBoolRes (by decide) exBoolCol (by decide) (by decide)

end Ingest
